import Mathlib

/-! WeatherCLI: classification, colour mapping and temperature banding.

A shallow embedding of `cmd/displayDesign.go`.  The regular expressions of the
rule table `rx` are written out as syntax trees, and `Regex.MatchString`
interprets them the way Go's `regexp` package does for the constructs that the
patterns use: case-folded literals, the classes `\s` and `[\s-]`, `?`, `*`, `+`
on a class, alternation, and the ASCII word boundary `\b`.
-/

namespace WeatherCLI

/-! ## Kinds and their labels -/

/-- Go: `type Kind int`. -/
abbrev Kind := Int

def Sunny : Kind := 0
def Cloudy : Kind := 1
def MostlyCloudy : Kind := 2
def PartlyCloudy : Kind := 3
def Rainy : Kind := 4
def LightRain : Kind := 5
def Snowy : Kind := 6
def Foggy : Kind := 7
def Lightning : Kind := 8
def Hail : Kind := 9

/-- The ten declared constants of type `Kind`, in declaration order. -/
def allKinds : List Kind :=
  [Sunny, Cloudy, MostlyCloudy, PartlyCloudy, Rainy, LightRain, Snowy, Foggy, Lightning, Hail]

/-- Go: `func (k Kind) String() string`. -/
def Kind.String (k : Kind) : String :=
  if k = Sunny then "sunny"
  else if k = Cloudy then "cloudy"
  else if k = MostlyCloudy then "mostly cloudy"
  else if k = PartlyCloudy then "party cloudy"
  else if k = Rainy then "rainy"
  else if k = LightRain then "light rain"
  else if k = Snowy then "snowy"
  else if k = Foggy then "foggy"
  else if k = Lightning then "lightning"
  else if k = Hail then "hail"
  else "cloudy"

/-! ## Colour codes -/

def red : String := "\x1b[31m"
def green : String := "\x1b[32m"
def yellow : String := "\x1b[33m"
def blue : String := "\x1b[34m"
def magenta : String := "\x1b[35m"
def cyan : String := "\x1b[36m"
def gray : String := "\x1b[90m"
def reset : String := "\x1b[0m"

/-! ## Regular expressions -/

/-- Syntax of the regular expressions that occur in `displayDesign.go`.  Every
pattern there starts with `(?i)`, so a literal is a case-folded literal.
Repetition (`*`, `+`) is only ever applied to a character class. -/
inductive Regex where
  | eps : Regex
  | lit (c : Char) : Regex
  | cls (cs : List Char) : Regex
  | star (cs : List Char) : Regex
  | wordB : Regex
  | seq (a b : Regex) : Regex
  | alt (a b : Regex) : Regex
  | opt (a : Regex) : Regex

/-- Go `unicode.SimpleFold` on the fold orbits of the ASCII characters: the
next character of the orbit, wrapping around.  The orbits of `k` and `s` have
three members (KELVIN SIGN U+212A and LATIN SMALL LETTER LONG S U+017F). -/
def simpleFold (c : Char) : Char :=
  if c = 'K' then 'k'
  else if c = 'k' then Char.ofNat 0x212A
  else if c = Char.ofNat 0x212A then 'K'
  else if c = 'S' then 's'
  else if c = 's' then Char.ofNat 0x017F
  else if c = Char.ofNat 0x017F then 'S'
  else if 'A' ≤ c ∧ c ≤ 'Z' then Char.ofNat (c.toNat + 32)
  else if 'a' ≤ c ∧ c ≤ 'z' then Char.ofNat (c.toNat - 32)
  else c

/-- Go `(*Inst).MatchRunePos` for a one-rune literal `r0` compiled with
`FoldCase`: the input rune is `r0` or another member of its fold orbit. -/
def matchRune (r0 x : Char) : Bool :=
  x == r0 || x == simpleFold r0 || x == simpleFold (simpleFold r0)

/-- Go `syntax.IsWordChar`: the ASCII word characters `[0-9A-Za-z_]`. -/
def isWordChar (c : Char) : Bool :=
  ('A' ≤ c && c ≤ 'Z') || ('a' ≤ c && c ≤ 'z') || ('0' ≤ c && c ≤ '9') || c == '_'

/-- Word-ness of an optional neighbour; the edge of the text is not a word
character (Go passes the rune `-1` there). -/
def isWordAt : Option Char → Bool
  | none => false
  | some c => isWordChar c

/-- Go `syntax.EmptyOpContext`, the `EmptyWordBoundary` bit: `\b` holds between
`prev` and the head of `rest` when exactly one of them is a word character. -/
def atWordBoundary (prev : Option Char) (rest : List Char) : Bool :=
  isWordAt prev != isWordAt rest.head?

/-- Zero or more characters of the class `cs`, then the continuation. -/
def starRun (cs : List Char) (k : Option Char → List Char → Bool) :
    Option Char → List Char → Bool
  | p, [] => k p []
  | p, x :: xs => (cs.contains x && starRun cs k (some x) xs) || k p (x :: xs)

/-- Backtracking matcher: `r.run k prev rest` holds when `r` matches a prefix
of `rest` (the character before it being `prev`) and the continuation `k`
accepts what is left. -/
def Regex.run : Regex → (Option Char → List Char → Bool) → Option Char → List Char → Bool
  | .eps, k, p, s => k p s
  | .lit _, _, _, [] => false
  | .lit c, k, _, x :: xs => matchRune c x && k (some x) xs
  | .cls _, _, _, [] => false
  | .cls cs, k, _, x :: xs => cs.contains x && k (some x) xs
  | .star cs, k, p, s => starRun cs k p s
  | .wordB, k, p, s => atWordBoundary p s && k p s
  | .seq a b, k, p, s => a.run (b.run k) p s
  | .alt a b, k, p, s => a.run k p s || b.run k p s
  | .opt a, k, p, s => a.run k p s || k p s

/-- Whether `r` matches starting exactly at the current position. -/
def Regex.matchHere (r : Regex) (prev : Option Char) (rest : List Char) : Bool :=
  r.run (fun _ _ => true) prev rest

/-- Unanchored search: try every start position from the current one on. -/
def Regex.search (r : Regex) : Option Char → List Char → Bool
  | p, [] => r.matchHere p []
  | p, x :: xs => r.matchHere p (x :: xs) || r.search (some x) xs

/-- Go: `(*Regexp).MatchString`. -/
def Regex.MatchString (r : Regex) (text : String) : Bool :=
  r.search none text.toList

/-! ### Pattern notation helpers -/

/-- A run of case-folded literals, one per character. -/
def lits (cs : List Char) : Regex :=
  cs.foldr (fun c r => Regex.seq (.lit c) r) .eps

/-- The literal string `s` of a pattern. -/
def str (s : String) : Regex := lits s.toList

/-- Alternation `r₁|r₂|…|rₙ`. -/
def alts : List Regex → Regex
  | [] => .eps
  | [r] => r
  | r :: rs => .alt r (alts rs)

/-- Concatenation `r₁r₂…rₙ`. -/
def cat : List Regex → Regex
  | [] => .eps
  | [r] => r
  | r :: rs => .seq r (cat rs)

/-- The Perl class `\s` of Go's `regexp/syntax`: `[\t\n\f\r ]`. -/
def space : List Char := [Char.ofNat 9, Char.ofNat 10, Char.ofNat 12, Char.ofNat 13, ' ']

/-- The class `[\s-]`. -/
def spaceOrDash : List Char := space ++ ['-']

/-- `\s*`. -/
def ws0 : Regex := .star space

/-- `\s+`. -/
def ws1 : Regex := .seq (.cls space) (.star space)

/-- `(?i)\b(…)\b`: every pattern of the file has this shape. -/
def word (body : Regex) : Regex := .seq .wordB (.seq body .wordB)

/-! ## The rule table -/

/-- Go: `type rules struct`, one list of compiled patterns per category. -/
structure rules where
  lightning : List Regex
  rain : List Regex
  snow : List Regex
  wintry : List Regex
  hail : List Regex
  fog : List Regex
  wind : List Regex
  sunny : List Regex
  cloudy : List Regex

/-- `s?` after a literal, as in `showers?`. -/
def optS : Regex := .opt (str "s")

/-- `precip(itation)?`. -/
def precip : Regex := cat [str "precip", .opt (str "itation")]

/-- Go: `var rx = rules{...}`.  Each entry is the pattern of the same position
in the source, shown in the comment before it. -/
def rx : rules where
  lightning := [
    -- (?i)\b(thunderstorm|thunderstorms|thunder)\b
    word (alts [str "thunderstorm", str "thunderstorms", str "thunder"]),
    -- (?i)\b(t[\s-]?storms?|t[\s-]?storm)\b
    word (alts [cat [str "t", .opt (.cls spaceOrDash), str "storm", optS],
                cat [str "t", .opt (.cls spaceOrDash), str "storm"]]),
    -- (?i)\b(tsra|vcts)\b
    word (alts [str "tsra", str "vcts"]),
    -- (?i)\b(squall)\b
    word (str "squall"),
    -- (?i)\b(lightning)\b
    word (str "lightning")]
  rain := [
    -- (?i)\b(rain|rains|rainfall)\b
    word (alts [str "rain", str "rains", str "rainfall"]),
    -- (?i)\b(showers?|rain\s*showers?)\b
    word (alts [cat [str "shower", optS], cat [str "rain", ws0, str "shower", optS]]),
    -- (?i)\b(drizzle|sprinkles?)\b
    word (alts [str "drizzle", cat [str "sprinkle", optS]]),
    -- (?i)\b(downpour|pouring)\b
    word (alts [str "downpour", str "pouring"]),
    -- (?i)\b(precip(itation)?)\b
    word precip,
    -- (?i)\b(chance\s+rain|likely\s+rain|periods?\s+of\s+rain)\b
    word (alts [cat [str "chance", ws1, str "rain"],
                cat [str "likely", ws1, str "rain"],
                cat [str "period", optS, ws1, str "of", ws1, str "rain"]]),
    -- (?i)\b(scattered\s+showers?|isolated\s+showers?)\b
    word (alts [cat [str "scattered", ws1, str "shower", optS],
                cat [str "isolated", ws1, str "shower", optS]]),
    -- (?i)\b(slight\s+chance\s+showers?)\b
    word (cat [str "slight", ws1, str "chance", ws1, str "shower", optS])]
  snow := [
    -- (?i)\b(snow|snows|snowfall)\b
    word (alts [str "snow", str "snows", str "snowfall"]),
    -- (?i)\b(flurries|snow\s*flurries)\b
    word (alts [str "flurries", cat [str "snow", ws0, str "flurries"]]),
    -- (?i)\b(snow\s*showers?)\b
    word (cat [str "snow", ws0, str "shower", optS]),
    -- (?i)\b(blizzard)\b
    word (str "blizzard"),
    -- (?i)\b(blowing\s+snow|drifting\s+snow)\b
    word (alts [cat [str "blowing", ws1, str "snow"], cat [str "drifting", ws1, str "snow"]]),
    -- (?i)\b(snow\s*squalls?)\b
    word (cat [str "snow", ws0, str "squall", optS]),
    -- (?i)\b(lake[-\s]?effect\s+snow)\b
    word (cat [str "lake", .opt (.cls spaceOrDash), str "effect", ws1, str "snow"])]
  wintry := [
    -- (?i)\b(wintry\s+mix)\b
    word (cat [str "wintry", ws1, str "mix"]),
    -- (?i)\b(rain\s*/\s*snow|snow\s*/\s*rain)\b
    word (alts [cat [str "rain", ws0, str "/", ws0, str "snow"],
                cat [str "snow", ws0, str "/", ws0, str "rain"]]),
    -- (?i)\b(mix(ed)?\s+precip(itation)?)\b
    word (cat [str "mix", .opt (str "ed"), ws1, precip]),
    -- (?i)\b(sleet)\b
    word (str "sleet"),
    -- (?i)\b(ice\s+pellets?)\b
    word (cat [str "ice", ws1, str "pellet", optS]),
    -- (?i)\b(freezing\s+rain)\b
    word (cat [str "freezing", ws1, str "rain"]),
    -- (?i)\b(freezing\s+drizzle)\b
    word (cat [str "freezing", ws1, str "drizzle"]),
    -- (?i)\b(glaze|icing)\b
    word (alts [str "glaze", str "icing"])]
  hail := [
    -- (?i)\b(hail)\b
    word (str "hail"),
    -- (?i)\b(small\s+hail)\b
    word (cat [str "small", ws1, str "hail"]),
    -- (?i)\b(graupel)\b
    word (str "graupel")]
  fog := [
    -- (?i)\b(fog|foggy)\b
    word (alts [str "fog", str "foggy"]),
    -- (?i)\b(patchy\s+fog)\b
    word (cat [str "patchy", ws1, str "fog"]),
    -- (?i)\b(dense\s+fog)\b
    word (cat [str "dense", ws1, str "fog"]),
    -- (?i)\b(mist|misty)\b
    word (alts [str "mist", str "misty"]),
    -- (?i)\b(low\s+visibility|reduced\s+visibility)\b
    word (alts [cat [str "low", ws1, str "visibility"],
                cat [str "reduced", ws1, str "visibility"]])]
  wind := [
    -- (?i)\b(windy)\b
    word (str "windy"),
    -- (?i)\b(breezy)\b
    word (str "breezy"),
    -- (?i)\b(gusty|gusts?)\b
    word (alts [str "gusty", cat [str "gust", optS]]),
    -- (?i)\b(blustery)\b
    word (str "blustery"),
    -- (?i)\b(strong\s+winds?)\b
    word (cat [str "strong", ws1, str "wind", optS]),
    -- (?i)\b(high\s+winds?)\b
    word (cat [str "high", ws1, str "wind", optS])]
  sunny := [
    -- (?i)\b(sunny)\b
    word (str "sunny"),
    -- (?i)\b(clear)\b
    word (str "clear"),
    -- (?i)\b(fair)\b
    word (str "fair"),
    -- (?i)\b(mostly\s+sunny)\b
    word (cat [str "mostly", ws1, str "sunny"]),
    -- (?i)\b(sunshine)\b
    word (str "sunshine"),
    -- (?i)\b(becoming\s+sunny)\b
    word (cat [str "becoming", ws1, str "sunny"]),
    -- (?i)\b(sunny\s+and\s+warm)\b
    word (cat [str "sunny", ws1, str "and", ws1, str "warm"])]
  cloudy := [
    -- (?i)\b(cloudy)\b
    word (str "cloudy"),
    -- (?i)\b(mostly\s+cloudy)\b
    word (cat [str "mostly", ws1, str "cloudy"]),
    -- (?i)\b(partly\s+cloudy)\b
    word (cat [str "partly", ws1, str "cloudy"]),
    -- (?i)\b(increasing\s+clouds?)\b
    word (cat [str "increasing", ws1, str "cloud", optS]),
    -- (?i)\b(decreasing\s+clouds?)\b
    word (cat [str "decreasing", ws1, str "cloud", optS]),
    -- (?i)\b(overcast)\b
    word (str "overcast"),
    -- (?i)\b(broken\s+clouds?)\b
    word (cat [str "broken", ws1, str "cloud", optS]),
    -- (?i)\b(scattered\s+clouds?)\b
    word (cat [str "scattered", ws1, str "cloud", optS])]

/-- The pattern `(?i)\b(light|slight|drizzle|sprinkle)\b` compiled inside
`classifyWeather`. -/
def lightMarker : Regex :=
  word (alts [str "light", str "slight", str "drizzle", str "sprinkle"])

/-- The pattern `(?i)\b(mostly)\b` compiled inside `classifyWeather`. -/
def mostlyMarker : Regex := word (str "mostly")

/-- The pattern `(?i)\b(partly)\b` compiled inside `classifyWeather`. -/
def partlyMarker : Regex := word (str "partly")

/-! ## Classification -/

/-- Go: `func matchesAny(text string, patterns []*regexp.Regexp) bool`. -/
def matchesAny (text : String) : List Regex → Bool
  | [] => false
  | pattern :: patterns => if pattern.MatchString text then true else matchesAny text patterns

/-- Go: `func classifyWeather(description string) Kind`. -/
def classifyWeather (description : String) : Kind :=
  if matchesAny description rx.lightning then Lightning
  else if matchesAny description rx.hail then Hail
  else if matchesAny description rx.snow then Snowy
  else if matchesAny description rx.rain then
    if matchesAny description [lightMarker] then LightRain else Rainy
  else if matchesAny description rx.fog then Foggy
  else if matchesAny description rx.sunny then Sunny
  else if matchesAny description rx.cloudy then
    if matchesAny description [mostlyMarker] then MostlyCloudy
    else if matchesAny description [partlyMarker] then PartlyCloudy
    else Cloudy
  else Cloudy

/-! ## Colour selection -/

/-- Go: `func changeTempColor(temp float32, tempUnit string) string`, the
temperature taken as an exact rational.  `colorCode` starts as the empty
string and keeps that value when no case of the switch applies. -/
def changeTempColor (temp : ℚ) (tempUnit : String) : String :=
  if tempUnit = "F" then
    if temp ≤ 32 then blue
    else if temp > 32 ∧ temp ≤ 60 then cyan
    else if temp > 60 ∧ temp ≤ 80 then green
    else if temp > 80 ∧ temp ≤ 90 then yellow
    else if temp > 90 then red
    else ""
  else
    if temp ≤ 0 then blue
    else if temp > 0 ∧ temp ≤ 15 then cyan
    else if temp > 15 ∧ temp ≤ 27 then green
    else if temp > 27 ∧ temp ≤ 32 then yellow
    else if temp > 32 then red
    else ""

/-- Go: `func mapWeatherToColor(weatherType string) string`. -/
def mapWeatherToColor (weatherType : String) : String :=
  if weatherType = "sunny" then yellow
  else if weatherType = "cloudy" ∨ weatherType = "mostly cloudy" ∨ weatherType = "partly cloudy"
    then gray
  else if weatherType = "rainy" ∨ weatherType = "light rain" then blue
  else if weatherType = "snowy" then cyan
  else if weatherType = "foggy" then gray
  else if weatherType = "lightning" ∨ weatherType = "hail" then magenta
  else gray

/-- The labels that the `case` clauses of `mapWeatherToColor` name. -/
def namedLabels : List String :=
  ["sunny", "cloudy", "mostly cloudy", "partly cloudy", "rainy", "light rain", "snowy", "foggy",
    "lightning", "hail"]

/-! ## Rendering -/

/-- Go `fmt` verb `%.0f` on the exact value `t`: the sign, then the magnitude
rounded to the nearest integer (a tie goes to the even neighbour) in decimal
digits. -/
def formatTemp (t : ℚ) : String :=
  let n := t.num.natAbs
  let q := n / t.den
  let r := n % t.den
  let rounded :=
    if 2 * r < t.den then q
    else if t.den < 2 * r then q + 1
    else if q % 2 = 0 then q
    else q + 1
  (if t < 0 then "-" else "") ++ Nat.repr rounded

/-- Go: `map[string]map[string]string`, the parsed asset store; a lookup of a
key that is absent gives `none`. -/
abbrev AssetTable := String → Option (String → Option String)

/-- Go: `possiblePaths` in `displayArt`.  The last two entries are built with
`filepath.Join` from the directory of the executable; they are taken as given. -/
def possiblePaths (exeDesigns exeParentDesigns : String) : List String :=
  ["designs/weather.json", "./designs/weather.json", exeDesigns, exeParentDesigns]

/-- The loop `for _, path := range possiblePaths` of `displayArt`.  The state is
`some data` while `err == nil` and `none` while `err != nil`; `readFile` is
`os.ReadFile`, with `none` for any error.  The loop stops at the first path
that can be read. -/
def readLoop (readFile : String → Option String) : Option String → List String → Option String
  | st, [] => st
  | _, path :: paths =>
    match readFile path with
    | some data => some data
    | none => readLoop readFile none paths

/-- Go: `func displayArt(weatherType string, temp float32, tempUnit string,
description string)`, as the text written to standard output.  `readFile` is
`os.ReadFile` and `unmarshal` is `json.Unmarshal` into an asset table (`none`
when it reports an error). -/
def displayArt (readFile : String → Option String) (unmarshal : String → Option AssetTable)
    (exeDesigns exeParentDesigns : String)
    (weatherType : String) (temp : ℚ) (tempUnit : String) (description : String) : String :=
  match readLoop readFile (some "") (possiblePaths exeDesigns exeParentDesigns) with
  | none =>
    "Weather: " ++ description ++ "\n" ++
      ("Temperature: " ++ formatTemp temp ++ " " ++ tempUnit ++ "\n")
  | some data =>
    match unmarshal data with
    | none =>
      "Weather: " ++ description ++ "\n" ++
        ("Temperature: " ++ formatTemp temp ++ " " ++ tempUnit ++ "\n")
    | some weatherData =>
      let weatherColor := mapWeatherToColor weatherType
      let art :=
        match weatherData weatherType with
        | some weatherInfo =>
          match weatherInfo "picture" with
          | some picture => weatherColor ++ (picture ++ "\n") ++ reset
          | none => ""
        | none => ""
      let tempColorCode := changeTempColor temp tempUnit
      art ++ ("\n" ++ tempColorCode ++ description ++ reset ++ "\n") ++
        ("Temperature: " ++ tempColorCode ++ formatTemp temp ++ " " ++ tempUnit ++ reset ++ "\n")

/-! ## Vocabulary of the statements -/

/-- The text matches at least one pattern of the category `patterns`. -/
def MatchesCategory (text : String) (patterns : List Regex) : Prop :=
  ∃ p ∈ patterns, p.MatchString text = true

instance (text : String) (patterns : List Regex) : Decidable (MatchesCategory text patterns) := by
  unfold MatchesCategory; infer_instance

/-- Case folding used to read "ignoring case" in the statements: the simple
case folding of Unicode on the characters whose folding is an ASCII character
(the upper-case ASCII letters, KELVIN SIGN and LATIN SMALL LETTER LONG S); it is
the identity on every other character, which is exact whenever one of the two
compared texts is ASCII. -/
def caseFold (c : Char) : Char :=
  if 'A' ≤ c ∧ c ≤ 'Z' then Char.ofNat (c.toNat + 32)
  else if c = Char.ofNat 0x212A then 'k'
  else if c = Char.ofNat 0x017F then 's'
  else c

/-- The two texts are equal ignoring letter case. -/
def EqIgnoreCase (a b : List Char) : Prop :=
  a.map caseFold = b.map caseFold

instance (a b : List Char) : Decidable (EqIgnoreCase a b) := by
  unfold EqIgnoreCase; infer_instance

/-- The text contains the whole word `w`, case-insensitively: it splits as
`pre ++ mid ++ post` where `mid` is `w` up to letter case and there is a word
boundary at both ends of `mid`. -/
def ContainsWholeWord (w text : String) : Prop :=
  ∃ pre mid post : List Char, text.toList = pre ++ mid ++ post ∧
    EqIgnoreCase mid w.toList ∧
    atWordBoundary pre.getLast? (mid ++ post) = true ∧
    atWordBoundary (pre ++ mid).getLast? post = true

/-- The text contains one of the light-intensity words as a whole word. -/
def HasLightWord (text : String) : Prop :=
  ContainsWholeWord "light" text ∨ ContainsWholeWord "slight" text ∨
    ContainsWholeWord "drizzle" text ∨ ContainsWholeWord "sprinkle" text

/-- Code-point form of `simpleFold`. -/
def simpleFoldCode (n : Nat) : Nat :=
  if n = 75 then 107 else if n = 107 then 0x212A else if n = 0x212A then 75
  else if n = 83 then 115 else if n = 115 then 0x17F else if n = 0x17F then 83
  else if 65 ≤ n ∧ n ≤ 90 then n + 32
  else if 97 ≤ n ∧ n ≤ 122 then n - 32 else n

/-- Code-point form of `caseFold`. -/
def caseFoldCode (m : Nat) : Nat :=
  if 65 ≤ m ∧ m ≤ 90 then m + 32
  else if m = 0x212A then 107 else if m = 0x17F then 115 else m

/-- An ASCII letter, by code point: `A`–`Z` or `a`–`z`. -/
def isAsciiLetter (c : Char) : Bool :=
  (65 ≤ c.toNat && c.toNat ≤ 90) || (97 ≤ c.toNat && c.toNat ≤ 122)

/-- The text is ASCII: every character has a code point below 128. -/
def IsAscii (text : String) : Prop := ∀ c ∈ text.toList, c.toNat < 128

instance (text : String) : Decidable (IsAscii text) := by
  unfold IsAscii; infer_instance

/-- The text is a single unbroken run of ASCII letters. -/
def IsLetterRun (text : String) : Prop := ∀ c ∈ text.toList, isAsciiLetter c = true

instance (text : String) : Decidable (IsLetterRun text) := by
  unfold IsLetterRun; infer_instance

/-- Every literal of the pattern is an ASCII character and no character class
of it contains a letter.  All patterns of `displayDesign.go` are of this kind. -/
def Regex.foldStable : Regex → Bool
  | .eps => true
  | .lit c => decide (c.toNat < 128)
  | .cls cs => cs.all (fun c => !isAsciiLetter c)
  | .star cs => cs.all (fun c => !isAsciiLetter c)
  | .wordB => true
  | .seq a b => a.foldStable && b.foldStable
  | .alt a b => a.foldStable && b.foldStable
  | .opt a => a.foldStable

/-- A change of letter case: it keeps the case folding of every character, maps
letters to letters and leaves every other character alone. -/
structure CaseMap (f : Char → Char) : Prop where
  fold : ∀ x, caseFold (f x) = caseFold x
  letter : ∀ x, isAsciiLetter (f x) = isAsciiLetter x
  fixed : ∀ x, isAsciiLetter x = false → f x = x

/-- The pattern contains no `\b`. -/
def Regex.noWordB : Regex → Bool
  | .eps => true
  | .lit _ => true
  | .cls _ => true
  | .star _ => true
  | .wordB => false
  | .seq a b => a.noWordB && b.noWordB
  | .alt a b => a.noWordB && b.noWordB
  | .opt a => a.noWordB

/-- The literal words that the pattern can match on a text without characters
of its classes: a class matches nothing there and a repeated class matches
only the empty text. -/
def Regex.letterWords : Regex → List (List Char)
  | .eps => [[]]
  | .lit c => [[c]]
  | .cls _ => []
  | .star _ => [[]]
  | .wordB => [[]]
  | .seq a b => a.letterWords.flatMap (fun u => b.letterWords.map (fun v => u ++ v))
  | .alt a b => a.letterWords ++ b.letterWords
  | .opt a => a.letterWords ++ [[]]

/-- The body of a pattern of the shape `\b(body)\b`. -/
def Regex.wordBody : Regex → Option Regex
  | .seq .wordB (.seq body .wordB) => some body
  | _ => none

/-- The pattern has the shape `\b(body)\b`, where the body has no `\b`, ASCII
literals and letter-free classes, and cannot match the empty text on a run of
letters. -/
def Regex.isWordPattern (p : Regex) : Bool :=
  match p.wordBody with
  | some body => body.noWordB && body.foldStable && body.letterWords.all (fun w => !w.isEmpty)
  | none => false

/-- The literal words of a pattern `\b(body)\b` on a run of letters. -/
def Regex.words (p : Regex) : List (List Char) :=
  match p.wordBody with
  | some body => body.letterWords
  | none => []

/-- The patterns that `classifyWeather` consults to pick a category, in the
order of the cascade. -/
def consultedPatterns : List Regex :=
  rx.lightning ++ rx.hail ++ rx.snow ++ rx.rain ++ rx.fog ++ rx.sunny ++ rx.cloudy

/-- The pattern matches the whole text, from its first to its last character. -/
def Regex.fullMatch (r : Regex) (text : String) : Bool :=
  r.run (fun _ rest => rest.isEmpty) none text.toList

/-- The ESCAPE character U+001B, with which every colour code starts. -/
def esc : Char := Char.ofNat 27

/-- The text contains no escape character, hence no colour escape sequence. -/
def EscFree (text : String) : Prop := esc ∉ text.toList

instance (text : String) : Decidable (EscFree text) := by
  unfold EscFree; infer_instance

/-- The text `part` occurs in the text `whole`. -/
def Occurs (part whole : String) : Prop := part.toList <:+: whole.toList

/-- The plain rendering: the description and the temperature, uncoloured. -/
def plainOutput (temp : ℚ) (tempUnit description : String) : String :=
  "Weather: " ++ description ++ "\n" ++ "Temperature: " ++ formatTemp temp ++ " " ++ tempUnit ++
    "\n"

/-- A file system with no asset store at any location. -/
def noFiles : String → Option String := fun _ => none

/-- An asset table with one entry: the label "sunny" with the picture "*". -/
def sunnyTable : AssetTable := fun label =>
  if label = "sunny" then some (fun field => if field = "picture" then some "*" else none)
  else none

/-- The asset table without entries, the value of the JSON text `{}`. -/
def emptyTable : AssetTable := fun _ => none

/-- A sample of `json.Unmarshal`, on three file contents only: the JSON object
with the one entry of `sunnyTable`, the empty JSON object, and a text that is
not JSON. -/
def sampleUnmarshal (data : String) : Option AssetTable :=
  if data = "\x7b\"sunny\": \x7b\"picture\": \"*\"\x7d\x7d" then some sunnyTable
  else if data = "\x7b\x7d" then some emptyTable
  else none

/-- A file system whose first candidate is readable but is not JSON and whose
second candidate holds a valid asset store. -/
def corruptThenValid (path : String) : Option String :=
  if path = "designs/weather.json" then some "not json"
  else if path = "./designs/weather.json" then some "\x7b\"sunny\": \x7b\"picture\": \"*\"\x7d\x7d"
  else none

/-- A file system whose only asset store, at the first candidate, is `{}`. -/
def emptyStore (path : String) : Option String :=
  if path = "designs/weather.json" then some "\x7b\x7d" else none

/-- A file system whose only asset store is at the last candidate `last`. -/
def onlyLast (last : String) (path : String) : Option String :=
  if path = last then some "\x7b\"sunny\": \x7b\"picture\": \"*\"\x7d\x7d" else none

/-- The first candidate of `paths` that can be read holds `data`: every
candidate before it cannot be read. -/
def FirstReadable (readFile : String → Option String) (paths : List String) (data : String) :
    Prop :=
  ∃ pre p post, paths = pre ++ p :: post ∧ (∀ q ∈ pre, readFile q = none) ∧
    readFile p = some data

/-- The rendering with a parsed asset table: the picture of the label, when
the table has one, in the kind colour, then the description and the
temperature in the temperature colour. -/
def renderTable (weatherData : AssetTable) (weatherType : String) (temp : ℚ)
    (tempUnit description : String) : String :=
  (match weatherData weatherType with
    | some weatherInfo =>
      match weatherInfo "picture" with
      | some picture => mapWeatherToColor weatherType ++ (picture ++ "\n") ++ reset
      | none => ""
    | none => "") ++
    ("\n" ++ changeTempColor temp tempUnit ++ description ++ reset ++ "\n") ++
    ("Temperature: " ++ changeTempColor temp tempUnit ++ formatTemp temp ++ " " ++ tempUnit ++
      reset ++ "\n")

/-- The five colour codes that `changeTempColor` can select. -/
def bandColors : List String := [blue, cyan, green, yellow, red]

/-! ## Lemmas -/

theorem matchesAny_iff (text : String) (patterns : List Regex) :
    matchesAny text patterns = true ↔ MatchesCategory text patterns := by
  induction patterns with
  | nil => simp [matchesAny, MatchesCategory]
  | cons p ps ih =>
    unfold MatchesCategory at ih ⊢
    by_cases hp : p.MatchString text = true
    · simp [matchesAny, hp]
    · simp [matchesAny, hp, ih]

theorem matchesAny_eq_false_iff (text : String) (patterns : List Regex) :
    matchesAny text patterns = false ↔ ¬ MatchesCategory text patterns := by
  rw [← matchesAny_iff]; simp

/-! ### Characters as code points -/

theorem char_eq_iff_toNat (a b : Char) : a = b ↔ a.toNat = b.toNat := by
  constructor
  · rintro rfl; rfl
  · intro h
    rw [← Char.ofNat_toNat a, ← Char.ofNat_toNat b, h]

theorem char_le_iff_toNat (a b : Char) : a ≤ b ↔ a.toNat ≤ b.toNat := by
  rw [Char.le_def]; exact Iff.rfl

theorem toNat_ofNat_of_lt (n : Nat) (h : n < 0xd800) : (Char.ofNat n).toNat = n := by
  have hv : n.isValidChar := Or.inl h
  simp only [Char.ofNat, hv, dite_true]
  rfl

theorem simpleFold_toNat (c : Char) : (simpleFold c).toNat = simpleFoldCode c.toNat := by
  unfold simpleFold simpleFoldCode
  simp only [char_eq_iff_toNat, char_le_iff_toNat]
  have e1 : ('K' : Char).toNat = 75 := rfl
  have e2 : ('k' : Char).toNat = 107 := rfl
  have e3 : (Char.ofNat 0x212A).toNat = 0x212A := rfl
  have e4 : ('S' : Char).toNat = 83 := rfl
  have e5 : ('s' : Char).toNat = 115 := rfl
  have e6 : (Char.ofNat 0x17F).toNat = 0x17F := rfl
  have e7 : ('A' : Char).toNat = 65 := rfl
  have e8 : ('Z' : Char).toNat = 90 := rfl
  have e9 : ('a' : Char).toNat = 97 := rfl
  have e10 : ('z' : Char).toNat = 122 := rfl
  simp only [e1, e2, e3, e4, e5, e6, e7, e8, e9, e10]
  split_ifs <;> first | rfl | (rw [toNat_ofNat_of_lt _ (by omega)])

theorem caseFold_toNat (c : Char) : (caseFold c).toNat = caseFoldCode c.toNat := by
  unfold caseFold caseFoldCode
  simp only [char_eq_iff_toNat, char_le_iff_toNat]
  have e3 : (Char.ofNat 0x212A).toNat = 0x212A := rfl
  have e6 : (Char.ofNat 0x17F).toNat = 0x17F := rfl
  have e7 : ('A' : Char).toNat = 65 := rfl
  have e8 : ('Z' : Char).toNat = 90 := rfl
  simp only [e3, e6, e7, e8]
  split_ifs <;> first | rfl | (rw [toNat_ofNat_of_lt _ (by omega)])

theorem simpleFoldCode_upper (n : Nat) (h1 : 65 ≤ n) (h2 : n ≤ 90) :
    simpleFoldCode n = n + 32 := by
  unfold simpleFoldCode
  split_ifs <;> omega

theorem simpleFoldCode_lower (n : Nat) (h1 : 97 ≤ n) (h2 : n ≤ 122) (h3 : n ≠ 107)
    (h4 : n ≠ 115) : simpleFoldCode n = n - 32 := by
  unfold simpleFoldCode
  split_ifs <;> omega

theorem simpleFoldCode_other (n : Nat) (h : n < 65 ∨ (90 < n ∧ n < 97) ∨ (122 < n ∧ n < 128)) :
    simpleFoldCode n = n := by
  unfold simpleFoldCode
  split_ifs <;> omega

theorem caseFoldCode_eq_iff (m k : Nat) : caseFoldCode m = k ↔
    (65 ≤ m ∧ m ≤ 90 ∧ k = m + 32) ∨ (m = 0x212A ∧ k = 107) ∨ (m = 0x17F ∧ k = 115) ∨
    ((m < 65 ∨ 90 < m) ∧ m ≠ 0x212A ∧ m ≠ 0x17F ∧ k = m) := by
  unfold caseFoldCode
  split_ifs <;> omega

/-- On code points: `m` lies in the fold orbit of the ASCII code `n` exactly
when both have the same case folding. -/
theorem orbit_iff_caseFoldCode (n m : Nat) (hn : n < 128) :
    (m = n ∨ m = simpleFoldCode n ∨ m = simpleFoldCode (simpleFoldCode n)) ↔
      caseFoldCode m = caseFoldCode n := by
  have hcases : n = 75 ∨ n = 107 ∨ n = 83 ∨ n = 115 ∨
      (n ≠ 75 ∧ n ≠ 83 ∧ 65 ≤ n ∧ n ≤ 90) ∨
      (n ≠ 107 ∧ n ≠ 115 ∧ 97 ≤ n ∧ n ≤ 122) ∨
      (n < 65 ∨ (90 < n ∧ n < 97) ∨ (122 < n ∧ n < 128)) := by omega
  rcases hcases with rfl | rfl | rfl | rfl | ⟨h1, h2, h3, h4⟩ | ⟨h1, h2, h3, h4⟩ | h
  · rw [show simpleFoldCode 75 = 107 from rfl, show simpleFoldCode 107 = 0x212A from rfl,
      show caseFoldCode 75 = 107 from rfl, caseFoldCode_eq_iff]
    omega
  · rw [show simpleFoldCode 107 = 0x212A from rfl, show simpleFoldCode 0x212A = 75 from rfl,
      show caseFoldCode 107 = 107 from rfl, caseFoldCode_eq_iff]
    omega
  · rw [show simpleFoldCode 83 = 115 from rfl, show simpleFoldCode 115 = 0x17F from rfl,
      show caseFoldCode 83 = 115 from rfl, caseFoldCode_eq_iff]
    omega
  · rw [show simpleFoldCode 115 = 0x17F from rfl, show simpleFoldCode 0x17F = 83 from rfl,
      show caseFoldCode 115 = 115 from rfl, caseFoldCode_eq_iff]
    omega
  · rw [simpleFoldCode_upper n h3 h4,
      simpleFoldCode_lower (n + 32) (by omega) (by omega) (by omega) (by omega),
      caseFoldCode_eq_iff, (caseFoldCode_eq_iff n (n + 32)).2 (by omega)]
    omega
  · rw [simpleFoldCode_lower n h3 h4 h1 h2,
      simpleFoldCode_upper (n - 32) (by omega) (by omega),
      caseFoldCode_eq_iff, (caseFoldCode_eq_iff n n).2 (by omega)]
    omega
  · rw [simpleFoldCode_other n h, simpleFoldCode_other n h, caseFoldCode_eq_iff,
      (caseFoldCode_eq_iff n n).2 (by omega)]
    omega

/-- A case-folded ASCII literal matches exactly the characters that equal it
ignoring case. -/
theorem matchRune_iff_caseFold (c x : Char) (hc : c.toNat < 128) :
    matchRune c x = true ↔ caseFold x = caseFold c := by
  unfold matchRune
  simp only [Bool.or_eq_true, beq_iff_eq, char_eq_iff_toNat, or_assoc, simpleFold_toNat,
    caseFold_toNat]
  exact orbit_iff_caseFoldCode _ _ hc

theorem forall₂_matchRune_iff (w : List Char) (hw : ∀ c ∈ w, c.toNat < 128) (mid : List Char) :
    List.Forall₂ (fun c x => matchRune c x = true) w mid ↔ EqIgnoreCase mid w := by
  unfold EqIgnoreCase
  induction w generalizing mid with
  | nil =>
    constructor
    · intro h; cases h; rfl
    · intro h
      have : mid = [] := by simpa using h
      subst this; exact List.Forall₂.nil
  | cons c w ih =>
    have hc : c.toNat < 128 := hw c (List.mem_cons_self _ _)
    have hw' : ∀ c ∈ w, c.toNat < 128 := fun d hd => hw d (List.mem_cons_of_mem _ hd)
    cases mid with
    | nil =>
      constructor
      · intro h; cases h
      · intro h; simp at h
    | cons x xs =>
      simp only [List.forall₂_cons, List.map_cons, List.cons.injEq, ih hw' xs,
        matchRune_iff_caseFold c x hc]

/-! ### The matcher on literal words -/

theorem lits_run (w : List Char) : ∀ (k : Option Char → List Char → Bool) (pre s : List Char),
    (lits w).run k pre.getLast? s = true ↔
      ∃ mid post, s = mid ++ post ∧ List.Forall₂ (fun c x => matchRune c x = true) w mid ∧
        k (pre ++ mid).getLast? post = true := by
  induction w with
  | nil =>
    intro k pre s
    simp only [lits, List.foldr, Regex.run]
    constructor
    · intro h
      exact ⟨[], s, rfl, List.Forall₂.nil, by simpa using h⟩
    · rintro ⟨mid, post, rfl, hm, hk⟩
      cases hm
      simpa using hk
  | cons c w ih =>
    intro k pre s
    cases s with
    | nil =>
      simp only [lits, List.foldr, Regex.run]
      constructor
      · intro h; cases h
      · rintro ⟨mid, post, hs, hm, -⟩
        cases hm
        simp at hs
    | cons x xs =>
      have hlast : (pre ++ [x]).getLast? = some x := by simp
      have ih' := ih k (pre ++ [x]) xs
      rw [hlast] at ih'
      simp only [lits, List.foldr, Regex.run, Bool.and_eq_true] at ih' ⊢
      rw [ih']
      constructor
      · rintro ⟨hx, mid, post, rfl, hm, hk⟩
        exact ⟨x :: mid, post, rfl, List.Forall₂.cons hx hm, by simpa using hk⟩
      · rintro ⟨mid, post, hs, hm, hk⟩
        cases hm with
        | cons hx hm' =>
          rename_i mid'
          simp only [List.cons_append, List.cons.injEq] at hs
          obtain ⟨rfl, rfl⟩ := hs
          exact ⟨hx, mid', post, rfl, hm', by simpa using hk⟩

theorem search_iff (r : Regex) : ∀ (pre s : List Char),
    r.search pre.getLast? s = true ↔
      ∃ a b, s = a ++ b ∧ r.matchHere (pre ++ a).getLast? b = true := by
  intro pre s
  induction s generalizing pre with
  | nil =>
    simp only [Regex.search]
    constructor
    · intro h; exact ⟨[], [], rfl, by simpa using h⟩
    · rintro ⟨a, b, hs, h⟩
      obtain ⟨rfl, rfl⟩ := List.append_eq_nil.1 hs.symm
      simpa using h
  | cons x xs ih =>
    have hlast : (pre ++ [x]).getLast? = some x := by simp
    have ih' := ih (pre ++ [x])
    rw [hlast] at ih'
    simp only [Regex.search, Bool.or_eq_true]
    rw [ih']
    constructor
    · rintro (h | ⟨a, b, rfl, h⟩)
      · exact ⟨[], x :: xs, rfl, by simpa using h⟩
      · exact ⟨x :: a, b, rfl, by simpa using h⟩
    · rintro ⟨a, b, hs, h⟩
      cases a with
      | nil =>
        simp only [List.nil_append] at hs
        subst hs
        left; simpa using h
      | cons y a' =>
        simp only [List.cons_append, List.cons.injEq] at hs
        obtain ⟨rfl, rfl⟩ := hs
        right; exact ⟨a', b, rfl, by simpa using h⟩

theorem word_matchHere (body : Regex) (p : Option Char) (s : List Char) :
    (word body).matchHere p s =
      (atWordBoundary p s && body.run (fun p' s' => atWordBoundary p' s') p s) := by
  simp [word, Regex.matchHere, Regex.run]

theorem word_alt_matchHere (a b : Regex) (p : Option Char) (s : List Char) :
    (word (.alt a b)).matchHere p s = ((word a).matchHere p s || (word b).matchHere p s) := by
  simp only [word_matchHere, Regex.run, Bool.and_or_distrib_left]

theorem word_alt_search (a b : Regex) (p : Option Char) (s : List Char) :
    (word (.alt a b)).search p s = ((word a).search p s || (word b).search p s) := by
  induction s generalizing p with
  | nil => simp only [Regex.search, word_alt_matchHere]
  | cons x xs ih =>
    simp only [Regex.search, word_alt_matchHere, ih]
    cases (word a).matchHere p (x :: xs) <;> cases (word b).matchHere p (x :: xs) <;>
      cases (word a).search (some x) xs <;> cases (word b).search (some x) xs <;> rfl

theorem word_alt_MatchString (a b : Regex) (text : String) :
    (word (.alt a b)).MatchString text =
      ((word a).MatchString text || (word b).MatchString text) :=
  word_alt_search a b none text.toList

/-- The pattern `(?i)\b(w)\b` for an ASCII word `w` matches a text exactly when
the text contains `w` as a whole word, case-insensitively. -/
theorem word_str_MatchString_iff (w : String) (hw : ∀ c ∈ w.toList, c.toNat < 128)
    (text : String) :
    (word (str w)).MatchString text = true ↔ ContainsWholeWord w text := by
  unfold Regex.MatchString ContainsWholeWord str
  have hs := search_iff (word (lits w.toList)) [] text.toList
  simp only [List.getLast?_nil, List.nil_append] at hs
  rw [hs]
  constructor
  · rintro ⟨a, b, hab, h⟩
    rw [word_matchHere, Bool.and_eq_true, lits_run] at h
    obtain ⟨hb1, mid, post, rfl, hm, hb2⟩ := h
    exact ⟨a, mid, post, by rw [hab, List.append_assoc],
      (forall₂_matchRune_iff _ hw mid).1 hm, hb1, hb2⟩
  · rintro ⟨pre, mid, post, hsplit, hm, hb1, hb2⟩
    refine ⟨pre, mid ++ post, by rw [hsplit, List.append_assoc], ?_⟩
    rw [word_matchHere, Bool.and_eq_true, lits_run]
    exact ⟨hb1, mid, post, rfl, (forall₂_matchRune_iff _ hw mid).2 hm, hb2⟩

theorem lightMarker_iff (text : String) :
    lightMarker.MatchString text = true ↔ HasLightWord text := by
  unfold lightMarker HasLightWord
  simp only [alts, word_alt_MatchString, Bool.or_eq_true]
  rw [word_str_MatchString_iff "light" (by decide), word_str_MatchString_iff "slight" (by decide),
    word_str_MatchString_iff "drizzle" (by decide),
    word_str_MatchString_iff "sprinkle" (by decide)]

theorem mostlyMarker_iff (text : String) :
    mostlyMarker.MatchString text = true ↔ ContainsWholeWord "mostly" text :=
  word_str_MatchString_iff "mostly" (by decide) text

theorem partlyMarker_iff (text : String) :
    partlyMarker.MatchString text = true ↔ ContainsWholeWord "partly" text :=
  word_str_MatchString_iff "partly" (by decide) text

theorem matchesAny_singleton (text : String) (p : Regex) :
    matchesAny text [p] = p.MatchString text := by
  cases h : p.MatchString text <;> simp [matchesAny, h]

theorem classifyWeather_mem_allKinds (d : String) : classifyWeather d ∈ allKinds := by
  unfold classifyWeather
  split_ifs <;> decide

/-! ## Claims -/

set_option maxRecDepth 100000

/-- C1: `classifyWeather` always returns one of the ten Kinds, and returns Cloudy
for every description that matches no lightning, hail, snow, rain, fog, sunny
or cloudy pattern, whatever wind or wintry-mix patterns it matches; the empty
string, "Windy" (a wind match) and "Sleet" (a wintry-mix match) give Cloudy. -/
theorem classifyWeather_total_default_cloudy :
    (∀ d : String, classifyWeather d ∈ allKinds) ∧
    (∀ d : String, ¬ MatchesCategory d rx.lightning → ¬ MatchesCategory d rx.hail →
      ¬ MatchesCategory d rx.snow → ¬ MatchesCategory d rx.rain →
      ¬ MatchesCategory d rx.fog → ¬ MatchesCategory d rx.sunny →
      ¬ MatchesCategory d rx.cloudy → classifyWeather d = Cloudy) ∧
    classifyWeather "" = Cloudy ∧
    (MatchesCategory "Windy" rx.wind ∧ classifyWeather "Windy" = Cloudy) ∧
    (MatchesCategory "Sleet" rx.wintry ∧ classifyWeather "Sleet" = Cloudy) := by
  refine ⟨classifyWeather_mem_allKinds, ?_, by decide, by decide, by decide⟩
  intro d h1 h2 h3 h4 h5 h6 h7
  rw [← matchesAny_eq_false_iff] at h1 h2 h3 h4 h5 h6 h7
  simp [classifyWeather, h1, h2, h3, h4, h5, h6, h7]

/-- Witness for C1: "Breezy and cold" matches none of the seven consulted
categories. -/
theorem classifyWeather_total_default_cloudy_witness :
    classifyWeather "Breezy and cold" = Cloudy :=
  classifyWeather_total_default_cloudy.2.1 "Breezy and cold" (by decide) (by decide) (by decide)
    (by decide) (by decide) (by decide) (by decide)

/-- C2: every description that matches a lightning pattern classifies as
Lightning, whatever else it matches; the four examples of the claim do. -/
theorem lightning_never_masked :
    (∀ d : String, MatchesCategory d rx.lightning → classifyWeather d = Lightning) ∧
    classifyWeather "thunderstorms with rain" = Lightning ∧
    classifyWeather "rain with lightning" = Lightning ∧
    classifyWeather "thunderstorms and hail" = Lightning ∧
    classifyWeather "hail and thunderstorms" = Lightning := by
  refine ⟨?_, by decide, by decide, by decide, by decide⟩
  intro d h1
  rw [← matchesAny_iff] at h1
  simp [classifyWeather, h1]

/-- Witness for C2: "rain with lightning" matches a lightning pattern (and a
rain pattern). -/
theorem lightning_never_masked_witness :
    MatchesCategory "rain with lightning" rx.rain ∧
      classifyWeather "rain with lightning" = Lightning :=
  ⟨by decide, lightning_never_masked.1 "rain with lightning" (by decide)⟩

/-- C3: every description that matches no lightning pattern and matches a hail
pattern classifies as Hail, whatever else it matches; "rain and hail", which
also matches a rain pattern, gives Hail. -/
theorem hail_after_lightning :
    (∀ d : String, ¬ MatchesCategory d rx.lightning → MatchesCategory d rx.hail →
      classifyWeather d = Hail) ∧
    (MatchesCategory "rain and hail" rx.rain ∧ classifyWeather "rain and hail" = Hail) := by
  refine ⟨?_, by decide, by decide⟩
  intro d h1 h2
  rw [← matchesAny_eq_false_iff] at h1
  rw [← matchesAny_iff] at h2
  simp [classifyWeather, h1, h2]

/-- Witness for C3: "small hail and snow showers". -/
theorem hail_after_lightning_witness :
    MatchesCategory "small hail and snow showers" rx.snow ∧
      classifyWeather "small hail and snow showers" = Hail :=
  ⟨by decide, hail_after_lightning.1 "small hail and snow showers" (by decide) (by decide)⟩

/-- C4: every description that matches no lightning and no hail pattern and
matches a snow pattern classifies as Snowy, also when it matches rain patterns;
"rain and snow expected" gives Snowy. -/
theorem snow_beats_rain :
    (∀ d : String, ¬ MatchesCategory d rx.lightning → ¬ MatchesCategory d rx.hail →
      MatchesCategory d rx.snow → classifyWeather d = Snowy) ∧
    (MatchesCategory "rain and snow expected" rx.rain ∧
      classifyWeather "rain and snow expected" = Snowy) := by
  refine ⟨?_, by decide, by decide⟩
  intro d h1 h2 h3
  rw [← matchesAny_eq_false_iff] at h1 h2
  rw [← matchesAny_iff] at h3
  simp [classifyWeather, h1, h2, h3]

/-- Witness for C4: "Rain showers then snow flurries". -/
theorem snow_beats_rain_witness :
    MatchesCategory "Rain showers then snow flurries" rx.rain ∧
      classifyWeather "Rain showers then snow flurries" = Snowy :=
  ⟨by decide,
    snow_beats_rain.1 "Rain showers then snow flurries" (by decide) (by decide) (by decide)⟩

/-- C5: for a description that matches no lightning, hail or snow pattern and
matches a rain pattern, the result is LightRain when the text contains one of
the whole words light, slight, drizzle, sprinkle (case-insensitive) and Rainy
otherwise; "light rain this afternoon" gives LightRain and "heavy rain
expected" gives Rainy. -/
theorem rain_disambiguation :
    (∀ d : String, ¬ MatchesCategory d rx.lightning → ¬ MatchesCategory d rx.hail →
      ¬ MatchesCategory d rx.snow → MatchesCategory d rx.rain →
      (HasLightWord d → classifyWeather d = LightRain) ∧
      (¬ HasLightWord d → classifyWeather d = Rainy)) ∧
    classifyWeather "light rain this afternoon" = LightRain ∧
    classifyWeather "heavy rain expected" = Rainy := by
  refine ⟨?_, by decide, by decide⟩
  intro d h1 h2 h3 h4
  rw [← matchesAny_eq_false_iff] at h1 h2 h3
  rw [← matchesAny_iff] at h4
  rw [← lightMarker_iff]
  cases hl : lightMarker.MatchString d <;>
    simp [classifyWeather, h1, h2, h3, h4, matchesAny_singleton, hl]

/-- Witness for C5: "Slight Chance Showers" contains the whole word "slight". -/
theorem rain_disambiguation_witness :
    HasLightWord "Slight Chance Showers" ∧ classifyWeather "Slight Chance Showers" = LightRain :=
  ⟨(lightMarker_iff _).1 (by decide),
    (rain_disambiguation.1 "Slight Chance Showers" (by decide) (by decide) (by decide)
      (by decide)).1 ((lightMarker_iff _).1 (by decide))⟩

/-- C6: for a description that matches no lightning, hail, snow, rain, fog or
sunny pattern and matches a cloudy pattern, the result is MostlyCloudy when the
text contains the whole word "mostly" (also when it contains "partly" as
well), otherwise PartlyCloudy when it contains the whole word "partly",
otherwise Cloudy; the three examples of the claim hold. -/
theorem cloud_disambiguation :
    (∀ d : String, ¬ MatchesCategory d rx.lightning → ¬ MatchesCategory d rx.hail →
      ¬ MatchesCategory d rx.snow → ¬ MatchesCategory d rx.rain →
      ¬ MatchesCategory d rx.fog → ¬ MatchesCategory d rx.sunny →
      MatchesCategory d rx.cloudy →
      (ContainsWholeWord "mostly" d → classifyWeather d = MostlyCloudy) ∧
      (¬ ContainsWholeWord "mostly" d → ContainsWholeWord "partly" d →
        classifyWeather d = PartlyCloudy) ∧
      (¬ ContainsWholeWord "mostly" d → ¬ ContainsWholeWord "partly" d →
        classifyWeather d = Cloudy)) ∧
    classifyWeather "mostly cloudy skies" = MostlyCloudy ∧
    classifyWeather "partly cloudy" = PartlyCloudy ∧
    classifyWeather "cloudy" = Cloudy := by
  refine ⟨?_, by decide, by decide, by decide⟩
  intro d h1 h2 h3 h4 h5 h6 h7
  rw [← matchesAny_eq_false_iff] at h1 h2 h3 h4 h5 h6
  rw [← matchesAny_iff] at h7
  rw [← mostlyMarker_iff, ← partlyMarker_iff]
  cases hm : mostlyMarker.MatchString d <;> cases hp : partlyMarker.MatchString d <;>
    simp [classifyWeather, h1, h2, h3, h4, h5, h6, h7, matchesAny_singleton, hm, hp]

/-- Witness for C6: "Partly Cloudy then Mostly Cloudy" contains both words and
classifies as MostlyCloudy. -/
theorem cloud_disambiguation_witness :
    ContainsWholeWord "partly" "Partly Cloudy then Mostly Cloudy" ∧
      classifyWeather "Partly Cloudy then Mostly Cloudy" = MostlyCloudy :=
  ⟨(partlyMarker_iff _).1 (by decide),
    (cloud_disambiguation.1 "Partly Cloudy then Mostly Cloudy" (by decide) (by decide)
      (by decide) (by decide) (by decide) (by decide) (by decide)).1
      ((mostlyMarker_iff _).1 (by decide))⟩

/-- C7, evaluated on the code: the label that `Kind.String` returns for
`PartlyCloudy` is "party cloudy"; it differs from "partly cloudy" and is none of
the labels that `mapWeatherToColor` names. -/
theorem partlyCloudy_label_is_misspelt :
    Kind.String PartlyCloudy = "party cloudy" ∧
    Kind.String PartlyCloudy ≠ "partly cloudy" ∧
    Kind.String PartlyCloudy ∉ namedLabels := by
  decide

/-- C8: for each of the ten Kinds the colour of its label is the specified one
(yellow for Sunny; gray for Cloudy, MostlyCloudy, PartlyCloudy, Foggy; blue for
Rainy, LightRain; cyan for Snowy; magenta for Lightning, Hail), and every string
that is not a named label maps to gray. -/
theorem mapWeatherToColor_of_kind :
    mapWeatherToColor (Kind.String Sunny) = yellow ∧
    mapWeatherToColor (Kind.String Cloudy) = gray ∧
    mapWeatherToColor (Kind.String MostlyCloudy) = gray ∧
    mapWeatherToColor (Kind.String PartlyCloudy) = gray ∧
    mapWeatherToColor (Kind.String Foggy) = gray ∧
    mapWeatherToColor (Kind.String Rainy) = blue ∧
    mapWeatherToColor (Kind.String LightRain) = blue ∧
    mapWeatherToColor (Kind.String Snowy) = cyan ∧
    mapWeatherToColor (Kind.String Lightning) = magenta ∧
    mapWeatherToColor (Kind.String Hail) = magenta ∧
    (∀ s : String, s ∉ namedLabels → mapWeatherToColor s = gray) := by
  refine ⟨by decide, by decide, by decide, by decide, by decide, by decide, by decide,
    by decide, by decide, by decide, ?_⟩
  intro s hs
  simp only [namedLabels, List.mem_cons, List.mem_singleton, List.not_mem_nil, or_false,
    not_or] at hs
  obtain ⟨h1, h2, h3, h4, h5, h6, h7, h8, h9, h10⟩ := hs
  simp [mapWeatherToColor, h1, h2, h3, h4, h5, h6, h7, h8, h9, h10]

/-- Witness for C8: the label really produced for PartlyCloudy is an unnamed
string and gets the default gray. -/
theorem mapWeatherToColor_of_kind_witness :
    "party cloudy" ∉ namedLabels ∧ mapWeatherToColor "party cloudy" = gray :=
  ⟨by decide, mapWeatherToColor_of_kind.2.2.2.2.2.2.2.2.2.2 "party cloudy" (by decide)⟩

/-- C9: distinct Kinds among the ten have distinct labels, and every character
of every label is a lowercase ASCII letter or a space (so none is uppercase). -/
theorem kindString_injective_lowercase :
    (∀ a ∈ allKinds, ∀ b ∈ allKinds, a ≠ b → Kind.String a ≠ Kind.String b) ∧
    (∀ k ∈ allKinds, ∀ c ∈ (Kind.String k).toList,
      (c.isLower = true ∨ c = ' ') ∧ c.isUpper = false) := by
  constructor <;> decide

/-- Witness for C9 at Cloudy and PartlyCloudy. -/
theorem kindString_injective_lowercase_witness :
    Cloudy ∈ allKinds ∧ PartlyCloudy ∈ allKinds ∧ Cloudy ≠ PartlyCloudy ∧
      Kind.String Cloudy ≠ Kind.String PartlyCloudy :=
  ⟨by decide, by decide, by decide,
    kindString_injective_lowercase.1 Cloudy (by decide) PartlyCloudy (by decide) (by decide)⟩

/-- C10: temperature bands with exact boundaries, for both units, the
temperature being a rational number; the five colours are pairwise distinct, so
each value lies in exactly one band; 32 F is blue and 32.01 F is cyan. -/
theorem changeTempColor_bands (t : ℚ) :
    ((t ≤ 32 → changeTempColor t "F" = blue) ∧
     (32 < t → t ≤ 60 → changeTempColor t "F" = cyan) ∧
     (60 < t → t ≤ 80 → changeTempColor t "F" = green) ∧
     (80 < t → t ≤ 90 → changeTempColor t "F" = yellow) ∧
     (90 < t → changeTempColor t "F" = red)) ∧
    ((t ≤ 0 → changeTempColor t "C" = blue) ∧
     (0 < t → t ≤ 15 → changeTempColor t "C" = cyan) ∧
     (15 < t → t ≤ 27 → changeTempColor t "C" = green) ∧
     (27 < t → t ≤ 32 → changeTempColor t "C" = yellow) ∧
     (32 < t → changeTempColor t "C" = red)) ∧
    bandColors.Nodup ∧
    changeTempColor 32 "F" = blue ∧ changeTempColor (3201 / 100) "F" = cyan := by
  have hF : ("F" : String) = "F" := rfl
  have hC : ¬ ("C" : String) = "F" := by decide
  refine ⟨⟨?_, ?_, ?_, ?_, ?_⟩, ⟨?_, ?_, ?_, ?_, ?_⟩, by decide, ?_, ?_⟩
  · intro h; simp [changeTempColor, h]
  · intro h1 h2; simp [changeTempColor, h1, h2, not_le.2 h1]
  · intro h1 h2
    have : 32 < t := by linarith
    have : ¬ t ≤ 60 := not_le.2 h1
    simp [changeTempColor, *]
  · intro h1 h2
    have : 32 < t := by linarith
    have : 60 < t := by linarith
    have : ¬ t ≤ 80 := not_le.2 h1
    have : ¬ t ≤ 60 := by linarith
    simp [changeTempColor, *]
  · intro h1
    have : 32 < t := by linarith
    have : 60 < t := by linarith
    have : 80 < t := by linarith
    have : ¬ t ≤ 90 := not_le.2 h1
    have : ¬ t ≤ 80 := by linarith
    have : ¬ t ≤ 60 := by linarith
    simp [changeTempColor, *]
  · intro h; simp [changeTempColor, hC, h]
  · intro h1 h2; simp [changeTempColor, hC, h1, h2, not_le.2 h1]
  · intro h1 h2
    have : 0 < t := by linarith
    have : ¬ t ≤ 15 := not_le.2 h1
    simp [changeTempColor, hC, *]
  · intro h1 h2
    have : 0 < t := by linarith
    have : 15 < t := by linarith
    have : ¬ t ≤ 27 := not_le.2 h1
    have : ¬ t ≤ 15 := by linarith
    simp [changeTempColor, hC, *]
  · intro h1
    have : 0 < t := by linarith
    have : 15 < t := by linarith
    have : 27 < t := by linarith
    have : ¬ t ≤ 32 := not_le.2 h1
    have : ¬ t ≤ 27 := by linarith
    have : ¬ t ≤ 15 := by linarith
    simp [changeTempColor, hC, *]
  · simp [changeTempColor]
  · norm_num [changeTempColor]

/-- Witness for C10: 60 degrees is cyan in Fahrenheit (upper edge of the cold
band). -/
theorem changeTempColor_bands_witness :
    (32 : ℚ) < 60 ∧ (60 : ℚ) ≤ 60 ∧ changeTempColor 60 "F" = cyan :=
  ⟨by norm_num, le_refl _, (changeTempColor_bands 60).1.2.1 (by norm_num) (le_refl _)⟩

/-! ### Reading and rendering -/

theorem readLoop_none (readFile : String → Option String) (paths : List String)
    (h : ∀ p ∈ paths, readFile p = none) : readLoop readFile none paths = none := by
  induction paths with
  | nil => rfl
  | cons p ps ih =>
    have hp : readFile p = none := h p (List.mem_cons_self _ _)
    simp only [readLoop, hp]
    exact ih (fun q hq => h q (List.mem_cons_of_mem _ hq))

theorem readLoop_firstReadable (readFile : String → Option String) (paths : List String)
    (data : String) (h : FirstReadable readFile paths data) (st : Option String) :
    readLoop readFile st paths = some data := by
  obtain ⟨pre, p, post, rfl, hpre, hp⟩ := h
  induction pre generalizing st with
  | nil => simp only [List.nil_append, readLoop, hp]
  | cons q qs ih =>
    have hq : readFile q = none := hpre q (List.mem_cons_self _ _)
    simp only [List.cons_append, readLoop, hq]
    exact ih none (fun r hr => hpre r (List.mem_cons_of_mem _ hr))

theorem displayArt_unreadable (readFile : String → Option String)
    (unmarshal : String → Option AssetTable) (e1 e2 weatherType : String) (temp : ℚ)
    (tempUnit description : String)
    (h : ∀ p ∈ possiblePaths e1 e2, readFile p = none) :
    displayArt readFile unmarshal e1 e2 weatherType temp tempUnit description =
      plainOutput temp tempUnit description := by
  have h1 : readFile "designs/weather.json" = none := h _ (by simp [possiblePaths])
  have hrest : readLoop readFile none ["./designs/weather.json", e1, e2] = none :=
    readLoop_none readFile _ (fun p hp => h p (by simp [possiblePaths] at hp ⊢; tauto))
  have hl : readLoop readFile (some "") (possiblePaths e1 e2) = none := by
    simp only [possiblePaths, readLoop, h1]
    exact hrest
  simp only [displayArt, hl, plainOutput, String.append_assoc]

theorem displayArt_unparsed (readFile : String → Option String)
    (unmarshal : String → Option AssetTable) (e1 e2 weatherType : String) (temp : ℚ)
    (tempUnit description data : String)
    (h : FirstReadable readFile (possiblePaths e1 e2) data) (hu : unmarshal data = none) :
    displayArt readFile unmarshal e1 e2 weatherType temp tempUnit description =
      plainOutput temp tempUnit description := by
  simp only [displayArt, readLoop_firstReadable readFile _ data h, hu, plainOutput,
    String.append_assoc]

theorem displayArt_parsed (readFile : String → Option String)
    (unmarshal : String → Option AssetTable) (e1 e2 weatherType : String) (temp : ℚ)
    (tempUnit description data : String) (table : AssetTable)
    (h : FirstReadable readFile (possiblePaths e1 e2) data) (hu : unmarshal data = some table) :
    displayArt readFile unmarshal e1 e2 weatherType temp tempUnit description =
      renderTable table weatherType temp tempUnit description := by
  simp only [displayArt, readLoop_firstReadable readFile _ data h, hu, renderTable]

theorem escFree_append (a b : String) : EscFree (a ++ b) ↔ EscFree a ∧ EscFree b := by
  simp [EscFree, not_or]

theorem digitChar_ne_esc : ∀ n : Nat, n < 10 → Nat.digitChar n ≠ esc := by
  decide

theorem toDigitsCore_escFree (fuel : Nat) : ∀ (n : Nat) (ds : List Char), esc ∉ ds →
    esc ∉ Nat.toDigitsCore 10 fuel n ds := by
  induction fuel with
  | zero => intro n ds h; simpa [Nat.toDigitsCore] using h
  | succ f ih =>
    intro n ds h
    have hd : esc ∉ Nat.digitChar (n % 10) :: ds := by
      simp only [List.mem_cons, not_or]
      exact ⟨fun e => digitChar_ne_esc _ (Nat.mod_lt _ (by decide)) e.symm, h⟩
    simp only [Nat.toDigitsCore]
    split_ifs
    · exact hd
    · exact ih _ _ hd

theorem escFree_repr (n : Nat) : EscFree (Nat.repr n) := by
  simp only [EscFree, Nat.repr, Nat.toDigits, List.asString]
  exact toDigitsCore_escFree _ _ _ (by simp)

theorem escFree_formatTemp (t : ℚ) : EscFree (formatTemp t) := by
  simp only [formatTemp, escFree_append]
  refine ⟨?_, escFree_repr _⟩
  split_ifs <;> decide

theorem escFree_plainOutput (temp : ℚ) (tempUnit description : String)
    (hd : EscFree description) (hu : EscFree tempUnit) :
    EscFree (plainOutput temp tempUnit description) := by
  simp only [plainOutput, escFree_append, and_assoc]
  exact ⟨by decide, hd, by decide, by decide, escFree_formatTemp temp, by decide, hu, by decide⟩

theorem occurs_self_append (x c : String) : Occurs x (x ++ c) :=
  ⟨[], c.toList, by simp [String.toList]⟩

theorem occurs_append_left (x a w : String) (h : Occurs x w) : Occurs x (a ++ w) := by
  obtain ⟨s, t, hst⟩ := h
  refine ⟨a.toList ++ s, t, ?_⟩
  simp only [String.toList, String.data_append] at hst ⊢
  rw [← hst]
  simp

theorem suffix_toList_append (a b : String) : b.toList <:+ (a ++ b).toList :=
  ⟨a.toList, by simp [String.toList]⟩

/-! ## Claims on units, the asset store and rendering -/

/-- C11, refuted as stated: with the empty unit tag (and with the tag "K") the
function returns a colour, not the empty colour code. -/
theorem changeTempColor_unknown_unit_is_coloured :
    ("" : String) ≠ "F" ∧ ("" : String) ≠ "C" ∧ changeTempColor 0 "" = blue ∧
    changeTempColor 0 "" ≠ "" ∧ changeTempColor 300 "K" = red := by
  refine ⟨by decide, by decide, ?_, ?_, ?_⟩
  · simp [changeTempColor]
  · simp [changeTempColor, blue]
  · norm_num [changeTempColor]

/-- C11, amended: every unit tag other than "F" is banded like "C", so the
result is one of the five colours and never the empty colour code. -/
theorem changeTempColor_other_unit (t : ℚ) (u : String) (hu : u ≠ "F") :
    changeTempColor t u = changeTempColor t "C" ∧ changeTempColor t u ∈ bandColors ∧
    changeTempColor t u ≠ "" := by
  have hC : ¬ ("C" : String) = "F" := by decide
  have h1 : changeTempColor t u = changeTempColor t "C" := by
    simp only [changeTempColor, hu, hC, if_false]
  have h2 : changeTempColor t "C" ∈ bandColors := by
    simp only [changeTempColor, hC, if_false, bandColors]
    split_ifs with a b c d e
    · simp
    · simp
    · simp
    · simp
    · simp
    · exfalso
      rw [not_le] at a
      exact e (lt_of_not_le (fun h => d ⟨lt_of_not_le (fun h' => c ⟨lt_of_not_le
        (fun h'' => b ⟨a, h''⟩), h'⟩), h⟩))
  refine ⟨h1, h1 ▸ h2, ?_⟩
  rw [h1]
  intro h
  rw [h] at h2
  revert h2
  decide

/-- Witness for C11 (amended): the empty tag at 0 degrees. -/
theorem changeTempColor_other_unit_witness :
    changeTempColor 0 "" = changeTempColor 0 "C" ∧ changeTempColor 0 "" ∈ bandColors ∧
    changeTempColor 0 "" ≠ "" :=
  changeTempColor_other_unit 0 "" (by decide)

/-- C12, refuted as stated: the first candidate is readable but is not JSON and
the second candidate holds a valid asset store; the table of the second
candidate is not used, the output is the plain one. -/
theorem corrupt_candidate_stops_the_chain :
    corruptThenValid "designs/weather.json" = some "not json" ∧
    (sampleUnmarshal "not json").isNone = true ∧
    (corruptThenValid "./designs/weather.json").bind sampleUnmarshal = some sunnyTable ∧
    displayArt corruptThenValid sampleUnmarshal "/opt/w/designs/weather.json"
        "/opt/designs/weather.json" "sunny" 72 "F" "Sunny" =
      plainOutput 72 "F" "Sunny" ∧
    displayArt corruptThenValid sampleUnmarshal "/opt/w/designs/weather.json"
        "/opt/designs/weather.json" "sunny" 72 "F" "Sunny" ≠
      renderTable sunnyTable "sunny" 72 "F" "Sunny" := by
  refine ⟨by decide, by decide, rfl, by decide, by decide⟩

/-- C12, amended: the candidates are tried in order and the first one that can
be read decides: when it parses, its table is the one used for rendering; when
it does not parse, no later candidate is tried and the output is the plain
one.  Only candidates that cannot be read are skipped. -/
theorem first_readable_candidate_decides (readFile : String → Option String)
    (unmarshal : String → Option AssetTable) (e1 e2 weatherType : String) (temp : ℚ)
    (tempUnit description data : String)
    (h : FirstReadable readFile (possiblePaths e1 e2) data) :
    (∀ table, unmarshal data = some table →
      displayArt readFile unmarshal e1 e2 weatherType temp tempUnit description =
        renderTable table weatherType temp tempUnit description) ∧
    (unmarshal data = none →
      displayArt readFile unmarshal e1 e2 weatherType temp tempUnit description =
        plainOutput temp tempUnit description) :=
  ⟨fun table hu => displayArt_parsed readFile unmarshal e1 e2 weatherType temp tempUnit
      description data table h hu,
    fun hu => displayArt_unparsed readFile unmarshal e1 e2 weatherType temp tempUnit
      description data h hu⟩

/-- Witness for C12 (amended): the first three candidates are absent and the
last one is valid; its table is used. -/
theorem first_readable_candidate_decides_witness :
    displayArt (onlyLast "/opt/designs/weather.json") sampleUnmarshal
        "/opt/w/designs/weather.json" "/opt/designs/weather.json" "sunny" 72 "F" "Sunny" =
      renderTable sunnyTable "sunny" 72 "F" "Sunny" :=
  (first_readable_candidate_decides (onlyLast "/opt/designs/weather.json") sampleUnmarshal
    "/opt/w/designs/weather.json" "/opt/designs/weather.json" "sunny" 72 "F" "Sunny"
    "\x7b\"sunny\": \x7b\"picture\": \"*\"\x7d\x7d"
    ⟨["designs/weather.json", "./designs/weather.json", "/opt/w/designs/weather.json"],
      "/opt/designs/weather.json", [], rfl, by decide, by decide⟩).1 sunnyTable rfl

/-- C13: when no candidate location can be read, and likewise when the first
readable candidate does not parse, the output is the plain one; it is not
empty, contains the description and the formatted temperature, and contains no
escape character when the description and the unit contain none. -/
theorem missing_store_plain_output (readFile : String → Option String)
    (unmarshal : String → Option AssetTable) (e1 e2 weatherType : String) (temp : ℚ)
    (tempUnit description out : String)
    (hout : out = displayArt readFile unmarshal e1 e2 weatherType temp tempUnit description)
    (h : (∀ p ∈ possiblePaths e1 e2, readFile p = none) ∨
      ∃ data, FirstReadable readFile (possiblePaths e1 e2) data ∧ unmarshal data = none) :
    out = plainOutput temp tempUnit description ∧ out ≠ "" ∧
    Occurs description out ∧ Occurs (formatTemp temp) out ∧
    (EscFree description → EscFree tempUnit → EscFree out) := by
  have ho : out = plainOutput temp tempUnit description := by
    rw [hout]
    rcases h with h | ⟨data, h, hu⟩
    · exact displayArt_unreadable readFile unmarshal e1 e2 weatherType temp tempUnit
        description h
    · exact displayArt_unparsed readFile unmarshal e1 e2 weatherType temp tempUnit
        description data h hu
  refine ⟨ho, ?_, ?_, ?_, ?_⟩
  · rw [ho]
    intro he
    have := congrArg String.length he
    simp only [plainOutput, String.length_append] at this
    have h9 : ("Weather: " : String).length = 9 := by decide
    have h0 : ("" : String).length = 0 := rfl
    omega
  · rw [ho]
    simp only [plainOutput, String.append_assoc]
    exact occurs_append_left _ _ _ (occurs_self_append _ _)
  · rw [ho]
    simp only [plainOutput, String.append_assoc]
    exact occurs_append_left _ _ _ (occurs_append_left _ _ _ (occurs_append_left _ _ _
      (occurs_append_left _ _ _ (occurs_self_append _ _))))
  · intro hd hu
    rw [ho]
    exact escFree_plainOutput temp tempUnit description hd hu

/-- Witness for C13: no file anywhere. -/
theorem missing_store_plain_output_witness :
    displayArt noFiles sampleUnmarshal "/opt/w/designs/weather.json"
        "/opt/designs/weather.json" "hail" (-4) "C" "Hail likely" =
      "Weather: Hail likely\nTemperature: -4 C\n" ∧
    EscFree (displayArt noFiles sampleUnmarshal "/opt/w/designs/weather.json"
        "/opt/designs/weather.json" "hail" (-4) "C" "Hail likely") :=
  have h := missing_store_plain_output noFiles sampleUnmarshal "/opt/w/designs/weather.json"
    "/opt/designs/weather.json" "hail" (-4) "C" "Hail likely" _ rfl
    (Or.inl (fun _ _ => rfl))
  ⟨h.1.trans (by decide), h.2.2.2.2 (by decide) (by decide)⟩

/-- C14, refuted as stated: the asset store parses to a table without an entry
for the label, the description and the unit contain no escape character, and
yet the output contains colour escape sequences and differs from the plain
output of the missing-store case. -/
theorem missing_entry_is_still_coloured :
    (emptyStore "designs/weather.json").bind sampleUnmarshal = some emptyTable ∧
    (emptyTable "party cloudy").isNone = true ∧
    EscFree "Partly Cloudy" ∧ EscFree "F" ∧
    displayArt emptyStore sampleUnmarshal "/opt/w/designs/weather.json"
        "/opt/designs/weather.json" "party cloudy" 72 "F" "Partly Cloudy" =
      "\n\x1b[32mPartly Cloudy\x1b[0m\nTemperature: \x1b[32m72 F\x1b[0m\n" ∧
    ¬ EscFree (displayArt emptyStore sampleUnmarshal "/opt/w/designs/weather.json"
        "/opt/designs/weather.json" "party cloudy" 72 "F" "Partly Cloudy") ∧
    displayArt emptyStore sampleUnmarshal "/opt/w/designs/weather.json"
        "/opt/designs/weather.json" "party cloudy" 72 "F" "Partly Cloudy" ≠
      plainOutput 72 "F" "Partly Cloudy" := by
  refine ⟨rfl, rfl, by decide, by decide, by decide, by decide, by decide⟩

/-- C14, amended: when the asset table is parsed but has no entry for the label,
or the entry has no picture, no picture is emitted, and the output is a blank
line, the description and the temperature line, both wrapped in the temperature
colour code and the reset code; so it does contain colour escape sequences. -/
theorem missing_entry_rendering (readFile : String → Option String)
    (unmarshal : String → Option AssetTable) (e1 e2 weatherType : String) (temp : ℚ)
    (tempUnit description data out : String) (table : AssetTable)
    (hout : out = displayArt readFile unmarshal e1 e2 weatherType temp tempUnit description)
    (h : FirstReadable readFile (possiblePaths e1 e2) data) (hu : unmarshal data = some table)
    (hno : table weatherType = none ∨
      ∃ info, table weatherType = some info ∧ info "picture" = none) :
    out = "\n" ++ changeTempColor temp tempUnit ++ description ++ reset ++ "\n" ++
      "Temperature: " ++ changeTempColor temp tempUnit ++ formatTemp temp ++ " " ++ tempUnit ++
      reset ++ "\n" ∧
    ¬ EscFree out := by
  have ho : out = "\n" ++ changeTempColor temp tempUnit ++ description ++ reset ++ "\n" ++
      "Temperature: " ++ changeTempColor temp tempUnit ++ formatTemp temp ++ " " ++ tempUnit ++
      reset ++ "\n" := by
    rw [hout, displayArt_parsed readFile unmarshal e1 e2 weatherType temp tempUnit description
      data table h hu]
    rcases hno with hno | ⟨info, hi, hp⟩
    · simp only [renderTable, hno, String.append_assoc, String.empty_append]
    · simp only [renderTable, hi, hp, String.append_assoc, String.empty_append]
  refine ⟨ho, ?_⟩
  rw [ho]
  simp only [String.append_assoc]
  intro hfree
  simp only [escFree_append] at hfree
  exact absurd hfree.2.2.2.1 (by decide)

/-- Witness for C14 (amended): the store `{}` and the label "party cloudy". -/
theorem missing_entry_rendering_witness :
    ¬ EscFree (displayArt emptyStore sampleUnmarshal "/opt/w/designs/weather.json"
        "/opt/designs/weather.json" "party cloudy" 72 "F" "Partly Cloudy") :=
  (missing_entry_rendering emptyStore sampleUnmarshal "/opt/w/designs/weather.json"
    "/opt/designs/weather.json" "party cloudy" 72 "F" "Partly Cloudy" "\x7b\x7d" _ emptyTable rfl
    ⟨[], "designs/weather.json", _, rfl, by decide, by decide⟩ rfl (Or.inl rfl)).2

/-- C18: when the asset table is parsed and has an entry with a picture for the
label, the output is the kind colour code, the picture, a newline and the reset
code; a newline, the temperature colour code, the description, the reset code
and a newline; then "Temperature: ", the temperature colour code, the formatted
temperature, a space, the unit, the reset code and a newline.  The output ends
with the reset code and a newline. -/
theorem coloured_rendering (readFile : String → Option String)
    (unmarshal : String → Option AssetTable) (e1 e2 weatherType : String) (temp : ℚ)
    (tempUnit description data picture out : String) (table : AssetTable)
    (info : String → Option String)
    (hout : out = displayArt readFile unmarshal e1 e2 weatherType temp tempUnit description)
    (h : FirstReadable readFile (possiblePaths e1 e2) data) (hu : unmarshal data = some table)
    (hi : table weatherType = some info) (hp : info "picture" = some picture) :
    out = mapWeatherToColor weatherType ++ picture ++ "\n" ++ reset ++
      "\n" ++ changeTempColor temp tempUnit ++ description ++ reset ++ "\n" ++
      "Temperature: " ++ changeTempColor temp tempUnit ++ formatTemp temp ++ " " ++ tempUnit ++
      reset ++ "\n" ∧
    (reset ++ "\n").toList <:+ out.toList := by
  have ho : out = mapWeatherToColor weatherType ++ picture ++ "\n" ++ reset ++
      "\n" ++ changeTempColor temp tempUnit ++ description ++ reset ++ "\n" ++
      "Temperature: " ++ changeTempColor temp tempUnit ++ formatTemp temp ++ " " ++ tempUnit ++
      reset ++ "\n" := by
    rw [hout, displayArt_parsed readFile unmarshal e1 e2 weatherType temp tempUnit description
      data table h hu]
    simp only [renderTable, hi, hp, String.append_assoc]
  refine ⟨ho, ?_⟩
  have hs : out = (mapWeatherToColor weatherType ++ picture ++ "\n" ++ reset ++
      "\n" ++ changeTempColor temp tempUnit ++ description ++ reset ++ "\n" ++
      "Temperature: " ++ changeTempColor temp tempUnit ++ formatTemp temp ++ " " ++ tempUnit) ++
      (reset ++ "\n") := by
    rw [ho]
    simp only [String.append_assoc]
  rw [hs]
  exact suffix_toList_append _ _

/-- Witness for C18: the sunny picture of the sample store, at 72 F; the
output ends with the reset code and a newline. -/
theorem coloured_rendering_witness :
    (reset ++ "\n").toList <:+
      (displayArt (onlyLast "/opt/designs/weather.json") sampleUnmarshal
        "/opt/w/designs/weather.json" "/opt/designs/weather.json" "sunny" 72 "F"
        "Sunny").toList :=
  (coloured_rendering (onlyLast "/opt/designs/weather.json") sampleUnmarshal
    "/opt/w/designs/weather.json" "/opt/designs/weather.json" "sunny" 72 "F" "Sunny"
    "\x7b\"sunny\": \x7b\"picture\": \"*\"\x7d\x7d" "*" _ sunnyTable
    (fun field => if field = "picture" then some "*" else none) rfl
    ⟨["designs/weather.json", "./designs/weather.json", "/opt/w/designs/weather.json"],
      "/opt/designs/weather.json", [], rfl, by decide, by decide⟩ (if_pos rfl) (if_pos rfl)
    (if_pos rfl)).2

/-! ## Claims on the cascade -/

/-- C17: for a description that matches no lightning, hail, snow or rain
pattern, the result is Foggy when a fog pattern matches and otherwise Sunny
when a sunny pattern matches, whatever cloudy patterns and whichever of the
words "mostly" and "partly" occur; the three examples of the claim hold. -/
theorem fog_then_sunny :
    (∀ d : String, ¬ MatchesCategory d rx.lightning → ¬ MatchesCategory d rx.hail →
      ¬ MatchesCategory d rx.snow → ¬ MatchesCategory d rx.rain →
      (MatchesCategory d rx.fog → classifyWeather d = Foggy) ∧
      (¬ MatchesCategory d rx.fog → MatchesCategory d rx.sunny → classifyWeather d = Sunny)) ∧
    (MatchesCategory "patchy fog then sunny" rx.sunny ∧
      classifyWeather "patchy fog then sunny" = Foggy) ∧
    classifyWeather "mostly sunny" = Sunny ∧
    (MatchesCategory "mostly cloudy then clear" rx.cloudy ∧
      classifyWeather "mostly cloudy then clear" = Sunny) := by
  refine ⟨?_, by decide, by decide, by decide⟩
  intro d h1 h2 h3 h4
  rw [← matchesAny_eq_false_iff] at h1 h2 h3 h4
  constructor
  · intro h5
    rw [← matchesAny_iff] at h5
    simp [classifyWeather, h1, h2, h3, h4, h5]
  · intro h5 h6
    rw [← matchesAny_eq_false_iff] at h5
    rw [← matchesAny_iff] at h6
    simp [classifyWeather, h1, h2, h3, h4, h5, h6]

/-- Witness for C17: "Partly Cloudy then Clear" has no fog match and a sunny
match. -/
theorem fog_then_sunny_witness :
    MatchesCategory "Partly Cloudy then Clear" rx.cloudy ∧
      classifyWeather "Partly Cloudy then Clear" = Sunny :=
  ⟨by decide, (fog_then_sunny.1 "Partly Cloudy then Clear" (by decide) (by decide) (by decide)
    (by decide)).2 (by decide) (by decide)⟩

/-- C19: a result other than Cloudy is justified by a match of its own
category: Lightning, Hail, Snowy, Foggy, Sunny by a pattern of that category;
Rainy and LightRain by a rain pattern; MostlyCloudy and PartlyCloudy by a cloudy
pattern together with the whole word "mostly", respectively "partly", and no
match of any category tested earlier. -/
theorem result_justified_by_category (d : String) :
    (classifyWeather d = Lightning → MatchesCategory d rx.lightning) ∧
    (classifyWeather d = Hail → MatchesCategory d rx.hail) ∧
    (classifyWeather d = Snowy → MatchesCategory d rx.snow) ∧
    (classifyWeather d = Foggy → MatchesCategory d rx.fog) ∧
    (classifyWeather d = Sunny → MatchesCategory d rx.sunny) ∧
    (classifyWeather d = Rainy → MatchesCategory d rx.rain) ∧
    (classifyWeather d = LightRain → MatchesCategory d rx.rain) ∧
    (classifyWeather d = MostlyCloudy →
      MatchesCategory d rx.cloudy ∧ ContainsWholeWord "mostly" d ∧
      ¬ MatchesCategory d rx.sunny ∧ ¬ MatchesCategory d rx.fog ∧
      ¬ MatchesCategory d rx.rain ∧ ¬ MatchesCategory d rx.snow ∧
      ¬ MatchesCategory d rx.hail ∧ ¬ MatchesCategory d rx.lightning) ∧
    (classifyWeather d = PartlyCloudy →
      MatchesCategory d rx.cloudy ∧ ContainsWholeWord "partly" d ∧
      ¬ MatchesCategory d rx.sunny ∧ ¬ MatchesCategory d rx.fog ∧
      ¬ MatchesCategory d rx.rain ∧ ¬ MatchesCategory d rx.snow ∧
      ¬ MatchesCategory d rx.hail ∧ ¬ MatchesCategory d rx.lightning) := by
  simp only [← matchesAny_iff, ← mostlyMarker_iff, ← partlyMarker_iff, ← matchesAny_singleton]
  unfold classifyWeather
  cases matchesAny d rx.lightning <;> cases matchesAny d rx.hail <;>
    cases matchesAny d rx.snow <;> cases matchesAny d rx.rain <;>
    simp [Lightning, Hail, Snowy, Foggy, Sunny, Rainy, LightRain, MostlyCloudy, PartlyCloudy,
      Cloudy]
  · cases matchesAny d rx.fog <;> cases matchesAny d rx.sunny <;>
      cases matchesAny d rx.cloudy <;> cases matchesAny d [mostlyMarker] <;>
      cases matchesAny d [partlyMarker] <;> simp
  · cases matchesAny d [lightMarker] <;> simp

/-- Witness for C19: "mostly cloudy skies" classifies as MostlyCloudy. -/
theorem result_justified_by_category_witness :
    MatchesCategory "mostly cloudy skies" rx.cloudy ∧
      ContainsWholeWord "mostly" "mostly cloudy skies" ∧
      ¬ MatchesCategory "mostly cloudy skies" rx.sunny :=
  have h := (result_justified_by_category "mostly cloudy skies").2.2.2.2.2.2.2.1 (by decide)
  ⟨h.1, h.2.1, h.2.2.1⟩

/-! ### Monotonicity of the matcher in its continuation -/

theorem starRun_mono (cs : List Char) (k k' : Option Char → List Char → Bool)
    (hk : ∀ p s, k p s = true → k' p s = true) :
    ∀ (s : List Char) (p : Option Char), starRun cs k p s = true → starRun cs k' p s = true := by
  intro s
  induction s with
  | nil => intro p h; simpa only [starRun] using hk _ _ (by simpa only [starRun] using h)
  | cons x xs ih =>
    intro p h
    simp only [starRun, Bool.or_eq_true, Bool.and_eq_true] at h ⊢
    rcases h with ⟨hc, h⟩ | h
    · exact Or.inl ⟨hc, ih _ h⟩
    · exact Or.inr (hk _ _ h)

theorem run_mono (r : Regex) : ∀ (k k' : Option Char → List Char → Bool),
    (∀ p s, k p s = true → k' p s = true) →
    ∀ (p : Option Char) (s : List Char), r.run k p s = true → r.run k' p s = true := by
  induction r with
  | eps => intro k k' hk p s h; simpa only [Regex.run] using hk _ _ (by simpa only [Regex.run] using h)
  | lit c =>
    intro k k' hk p s h
    cases s with
    | nil => simp [Regex.run] at h
    | cons x xs =>
      simp only [Regex.run, Bool.and_eq_true] at h ⊢
      exact ⟨h.1, hk _ _ h.2⟩
  | cls cs =>
    intro k k' hk p s h
    cases s with
    | nil => simp [Regex.run] at h
    | cons x xs =>
      simp only [Regex.run, Bool.and_eq_true] at h ⊢
      exact ⟨h.1, hk _ _ h.2⟩
  | star cs =>
    intro k k' hk p s h
    simp only [Regex.run] at h ⊢
    exact starRun_mono cs k k' hk s p h
  | wordB =>
    intro k k' hk p s h
    simp only [Regex.run, Bool.and_eq_true] at h ⊢
    exact ⟨h.1, hk _ _ h.2⟩
  | seq a b iha ihb =>
    intro k k' hk p s h
    simp only [Regex.run] at h ⊢
    exact iha _ _ (ihb k k' hk) p s h
  | alt a b iha ihb =>
    intro k k' hk p s h
    simp only [Regex.run, Bool.or_eq_true] at h ⊢
    exact h.imp (iha k k' hk p s) (ihb k k' hk p s)
  | opt a iha =>
    intro k k' hk p s h
    simp only [Regex.run, Bool.or_eq_true] at h ⊢
    exact h.imp (iha k k' hk p s) (hk p s)

theorem search_mono (r r' : Regex)
    (h : ∀ p s, r.matchHere p s = true → r'.matchHere p s = true) :
    ∀ (s : List Char) (p : Option Char), r.search p s = true → r'.search p s = true := by
  intro s
  induction s with
  | nil => intro p hs; simpa only [Regex.search] using h _ _ (by simpa only [Regex.search] using hs)
  | cons x xs ih =>
    intro p hs
    simp only [Regex.search, Bool.or_eq_true] at hs ⊢
    exact hs.imp (h _ _) (ih _)

/-- A pattern `\b(w)\b` that matches still matches when an optional `s` is
allowed after `w`. -/
theorem word_optS_of_word (body : Regex) (text : String)
    (h : (word body).MatchString text = true) :
    (word (.seq body optS)).MatchString text = true := by
  refine search_mono (word body) _ ?_ text.toList none h
  intro p s hm
  rw [word_matchHere, Bool.and_eq_true] at hm ⊢
  refine ⟨hm.1, ?_⟩
  simp only [Regex.run]
  refine run_mono body _ _ ?_ p s hm.2
  intro p' s' hk
  simp only [optS, Regex.run, Bool.or_eq_true]
  exact Or.inr hk

theorem rain_of_drizzle_or_sprinkle (d : String)
    (h : ContainsWholeWord "drizzle" d ∨ ContainsWholeWord "sprinkle" d) :
    MatchesCategory d rx.rain := by
  refine ⟨word (.alt (str "drizzle") (.seq (str "sprinkle") optS)), ?_, ?_⟩
  · simp [rx, alts, cat]
  · rw [word_alt_MatchString, Bool.or_eq_true]
    rcases h with h | h
    · exact Or.inl ((word_str_MatchString_iff "drizzle" (by decide) d).2 h)
    · exact Or.inr (word_optS_of_word _ _ ((word_str_MatchString_iff "sprinkle" (by decide) d).2 h))

/-- C20: a description that contains the whole word "drizzle" or "sprinkle"
(case-insensitive) classifies as LightRain unless a lightning, hail or snow
pattern matches; the result is one of Lightning, Hail, Snowy, LightRain, never
Rainy, Foggy, Sunny, Cloudy, MostlyCloudy or PartlyCloudy. -/
theorem drizzle_sprinkle_light_rain (d : String)
    (h : ContainsWholeWord "drizzle" d ∨ ContainsWholeWord "sprinkle" d) :
    (¬ MatchesCategory d rx.lightning → ¬ MatchesCategory d rx.hail →
      ¬ MatchesCategory d rx.snow → classifyWeather d = LightRain) ∧
    classifyWeather d ∈ [Lightning, Hail, Snowy, LightRain] ∧
    classifyWeather d ≠ Rainy ∧ classifyWeather d ≠ Foggy ∧ classifyWeather d ≠ Sunny ∧
    classifyWeather d ≠ Cloudy ∧ classifyWeather d ≠ MostlyCloudy ∧
    classifyWeather d ≠ PartlyCloudy := by
  have hr : matchesAny d rx.rain = true := (matchesAny_iff _ _).2 (rain_of_drizzle_or_sprinkle d h)
  have hl : matchesAny d [lightMarker] = true := by
    rw [matchesAny_singleton, lightMarker_iff]
    exact h.elim (fun h => Or.inr (Or.inr (Or.inl h))) (fun h => Or.inr (Or.inr (Or.inr h)))
  simp only [← matchesAny_eq_false_iff]
  unfold classifyWeather
  cases matchesAny d rx.lightning <;> cases matchesAny d rx.hail <;>
    cases matchesAny d rx.snow <;>
    simp [hr, hl, Lightning, Hail, Snowy, Foggy, Sunny, Rainy, LightRain, MostlyCloudy,
      PartlyCloudy, Cloudy]

/-- Witness for C20: "Patchy Drizzle and Fog". -/
theorem drizzle_sprinkle_light_rain_witness :
    MatchesCategory "Patchy Drizzle and Fog" rx.fog ∧
      classifyWeather "Patchy Drizzle and Fog" = LightRain :=
  ⟨by decide, (drizzle_sprinkle_light_rain "Patchy Drizzle and Fog"
    (Or.inl ((word_str_MatchString_iff "drizzle" (by decide) _).1 (by decide)))).1
    (by decide) (by decide) (by decide)⟩

/-! ### Letter case -/

theorem isWordChar_iff (c : Char) : isWordChar c = true ↔
    (65 ≤ c.toNat ∧ c.toNat ≤ 90) ∨ (97 ≤ c.toNat ∧ c.toNat ≤ 122) ∨
      (48 ≤ c.toNat ∧ c.toNat ≤ 57) ∨ c.toNat = 95 := by
  have e1 : ('A' : Char).toNat = 65 := rfl
  have e2 : ('Z' : Char).toNat = 90 := rfl
  have e3 : ('a' : Char).toNat = 97 := rfl
  have e4 : ('z' : Char).toNat = 122 := rfl
  have e5 : ('0' : Char).toNat = 48 := rfl
  have e6 : ('9' : Char).toNat = 57 := rfl
  have e7 : ('_' : Char).toNat = 95 := rfl
  simp only [isWordChar, Bool.or_eq_true, Bool.and_eq_true, decide_eq_true_eq, beq_iff_eq,
    char_le_iff_toNat, char_eq_iff_toNat, e1, e2, e3, e4, e5, e6, e7, or_assoc]

theorem isAsciiLetter_iff (c : Char) : isAsciiLetter c = true ↔
    (65 ≤ c.toNat ∧ c.toNat ≤ 90) ∨ (97 ≤ c.toNat ∧ c.toNat ≤ 122) := by
  simp only [isAsciiLetter, Bool.or_eq_true, Bool.and_eq_true, decide_eq_true_eq]

theorem isWordChar_of_letter (c : Char) (h : isAsciiLetter c = true) : isWordChar c = true := by
  rw [isWordChar_iff]
  rw [isAsciiLetter_iff] at h
  omega

theorem toUpper_toNat (c : Char) : c.toUpper.toNat =
    if 97 ≤ c.toNat ∧ c.toNat ≤ 122 then c.toNat - 32 else c.toNat := by
  simp only [Char.toUpper, ge_iff_le]
  split_ifs with h
  · exact toNat_ofNat_of_lt _ (by omega)
  · rfl

theorem toLower_toNat (c : Char) : c.toLower.toNat =
    if 65 ≤ c.toNat ∧ c.toNat ≤ 90 then c.toNat + 32 else c.toNat := by
  simp only [Char.toLower, ge_iff_le]
  split_ifs with h
  · exact toNat_ofNat_of_lt _ (by omega)
  · rfl

theorem caseMap_toUpper : CaseMap Char.toUpper where
  fold x := by
    rw [char_eq_iff_toNat, caseFold_toNat, caseFold_toNat, toUpper_toNat]
    unfold caseFoldCode
    split_ifs <;> omega
  letter x := by
    rw [Bool.eq_iff_iff, isAsciiLetter_iff, isAsciiLetter_iff, toUpper_toNat]
    split_ifs <;> omega
  fixed x h := by
    have h' : ¬ isAsciiLetter x = true := by simp [h]
    rw [isAsciiLetter_iff] at h'
    rw [char_eq_iff_toNat, toUpper_toNat]
    split_ifs <;> omega

theorem caseMap_toLower : CaseMap Char.toLower where
  fold x := by
    rw [char_eq_iff_toNat, caseFold_toNat, caseFold_toNat, toLower_toNat]
    unfold caseFoldCode
    split_ifs <;> omega
  letter x := by
    rw [Bool.eq_iff_iff, isAsciiLetter_iff, isAsciiLetter_iff, toLower_toNat]
    split_ifs <;> omega
  fixed x h := by
    have h' : ¬ isAsciiLetter x = true := by simp [h]
    rw [isAsciiLetter_iff] at h'
    rw [char_eq_iff_toNat, toLower_toNat]
    split_ifs <;> omega

theorem CaseMap.isWordChar_eq {f : Char → Char} (hf : CaseMap f) (x : Char) :
    isWordChar (f x) = isWordChar x := by
  cases hx : isAsciiLetter x with
  | false => rw [hf.fixed x hx]
  | true =>
    rw [isWordChar_of_letter x hx, isWordChar_of_letter (f x) (by rw [hf.letter, hx])]

theorem CaseMap.matchRune_eq {f : Char → Char} (hf : CaseMap f) (c x : Char)
    (hc : c.toNat < 128) : matchRune c (f x) = matchRune c x := by
  rw [Bool.eq_iff_iff, matchRune_iff_caseFold c _ hc, matchRune_iff_caseFold c _ hc, hf.fold]

theorem CaseMap.contains_eq {f : Char → Char} (hf : CaseMap f) (cs : List Char)
    (hcs : cs.all (fun c => !isAsciiLetter c) = true) (x : Char) :
    cs.contains (f x) = cs.contains x := by
  cases hx : isAsciiLetter x with
  | false => rw [hf.fixed x hx]
  | true =>
    have hfx : isAsciiLetter (f x) = true := by rw [hf.letter, hx]
    rw [List.all_eq_true] at hcs
    have h1 : cs.contains x = false := by
      rw [Bool.eq_false_iff]
      intro h
      have := hcs x (by simpa using h)
      simp [hx] at this
    have h2 : cs.contains (f x) = false := by
      rw [Bool.eq_false_iff]
      intro h
      have := hcs (f x) (by simpa using h)
      simp [hfx] at this
    rw [h1, h2]

theorem CaseMap.atWordBoundary_eq {f : Char → Char} (hf : CaseMap f) (p : Option Char)
    (s : List Char) : atWordBoundary (p.map f) (s.map f) = atWordBoundary p s := by
  have h1 : isWordAt (p.map f) = isWordAt p := by
    cases p with
    | none => rfl
    | some c => exact hf.isWordChar_eq c
  have h2 : isWordAt (s.map f).head? = isWordAt s.head? := by
    cases s with
    | nil => rfl
    | cons x xs => exact hf.isWordChar_eq x
  simp only [atWordBoundary, h1, h2]

theorem CaseMap.starRun_eq {f : Char → Char} (hf : CaseMap f) (cs : List Char)
    (hcs : cs.all (fun c => !isAsciiLetter c) = true)
    (k k' : Option Char → List Char → Bool)
    (hk : ∀ p s, k' (p.map f) (s.map f) = k p s) :
    ∀ (s : List Char) (p : Option Char),
      starRun cs k' (p.map f) (s.map f) = starRun cs k p s := by
  intro s
  induction s with
  | nil => intro p; simpa only [starRun, List.map_nil] using hk p []
  | cons x xs ih =>
    intro p
    have h1 := ih (some x)
    have h2 := hk p (x :: xs)
    simp only [Option.map_some', List.map_cons] at h1 h2
    simp only [List.map_cons, starRun, hf.contains_eq cs hcs x, h1, h2]

theorem CaseMap.run_eq {f : Char → Char} (hf : CaseMap f) (r : Regex) :
    r.foldStable = true → ∀ (k k' : Option Char → List Char → Bool),
    (∀ p s, k' (p.map f) (s.map f) = k p s) →
    ∀ (p : Option Char) (s : List Char), r.run k' (p.map f) (s.map f) = r.run k p s := by
  induction r with
  | eps => intro _ k k' hk p s; simpa only [Regex.run] using hk p s
  | lit c =>
    intro hr k k' hk p s
    have hc : c.toNat < 128 := by simpa [Regex.foldStable] using hr
    cases s with
    | nil => rfl
    | cons x xs =>
      have h2 := hk (some x) xs
      simp only [Option.map_some'] at h2
      simp only [List.map_cons, Regex.run, hf.matchRune_eq c x hc, h2]
  | cls cs =>
    intro hr k k' hk p s
    cases s with
    | nil => rfl
    | cons x xs =>
      have h2 := hk (some x) xs
      simp only [Option.map_some'] at h2
      simp only [List.map_cons, Regex.run, hf.contains_eq cs hr x, h2]
  | star cs =>
    intro hr k k' hk p s
    simp only [Regex.run]
    exact hf.starRun_eq cs hr k k' hk s p
  | wordB =>
    intro _ k k' hk p s
    simp only [Regex.run, hf.atWordBoundary_eq, hk]
  | seq a b iha ihb =>
    intro hr k k' hk p s
    simp only [Regex.foldStable, Bool.and_eq_true] at hr
    simp only [Regex.run]
    exact iha hr.1 _ _ (ihb hr.2 k k' hk) p s
  | alt a b iha ihb =>
    intro hr k k' hk p s
    simp only [Regex.foldStable, Bool.and_eq_true] at hr
    simp only [Regex.run, iha hr.1 k k' hk p s, ihb hr.2 k k' hk p s]
  | opt a iha =>
    intro hr k k' hk p s
    simp only [Regex.foldStable] at hr
    simp only [Regex.run, iha hr k k' hk p s, hk p s]

theorem CaseMap.search_eq {f : Char → Char} (hf : CaseMap f) (r : Regex)
    (hr : r.foldStable = true) :
    ∀ (s : List Char) (p : Option Char), r.search (p.map f) (s.map f) = r.search p s := by
  intro s
  induction s with
  | nil =>
    intro p
    simp only [List.map_nil, Regex.search, Regex.matchHere]
    exact hf.run_eq r hr _ _ (fun _ _ => rfl) p []
  | cons x xs ih =>
    intro p
    have h1 := ih (some x)
    have h2 := hf.run_eq r hr (fun _ _ => true) (fun _ _ => true) (fun _ _ => rfl) p (x :: xs)
    simp only [Option.map_some', List.map_cons] at h1 h2
    simp only [List.map_cons, Regex.search, Regex.matchHere, h1, h2]

theorem CaseMap.MatchString_eq {f : Char → Char} (hf : CaseMap f) (r : Regex)
    (hr : r.foldStable = true) (text : String) :
    r.MatchString (text.map f) = r.MatchString text := by
  simp only [Regex.MatchString, String.map_eq, String.toList]
  exact hf.search_eq r hr text.data none

theorem CaseMap.matchesAny_eq {f : Char → Char} (hf : CaseMap f) (text : String) :
    ∀ patterns : List Regex, (∀ p ∈ patterns, p.foldStable = true) →
      matchesAny (text.map f) patterns = matchesAny text patterns := by
  intro patterns
  induction patterns with
  | nil => intro _; rfl
  | cons p ps ih =>
    intro h
    simp only [matchesAny, hf.MatchString_eq p (h p (List.mem_cons_self _ _)) text,
      ih (fun q hq => h q (List.mem_cons_of_mem _ hq))]

/-- A change of letter case of the description does not change the result. -/
theorem CaseMap.classifyWeather_eq {f : Char → Char} (hf : CaseMap f) (d : String) :
    classifyWeather (d.map f) = classifyWeather d := by
  simp only [classifyWeather, hf.matchesAny_eq d rx.lightning (by decide),
    hf.matchesAny_eq d rx.hail (by decide), hf.matchesAny_eq d rx.snow (by decide),
    hf.matchesAny_eq d rx.rain (by decide), hf.matchesAny_eq d rx.fog (by decide),
    hf.matchesAny_eq d rx.sunny (by decide), hf.matchesAny_eq d rx.cloudy (by decide),
    hf.matchesAny_eq d [lightMarker] (by decide), hf.matchesAny_eq d [mostlyMarker] (by decide),
    hf.matchesAny_eq d [partlyMarker] (by decide)]

/-- C15: for every ASCII description, the description converted to upper case
and the description converted to lower case classify as the description does. -/
theorem classifyWeather_case_insensitive (s : String) (_hs : IsAscii s) :
    classifyWeather s.toUpper = classifyWeather s ∧
    classifyWeather s.toLower = classifyWeather s :=
  ⟨caseMap_toUpper.classifyWeather_eq s, caseMap_toLower.classifyWeather_eq s⟩

/-- Witness for C15: "Light Rain then T-Storms". -/
theorem classifyWeather_case_insensitive_witness :
    classifyWeather "Light Rain then T-Storms".toUpper = Lightning ∧
    classifyWeather "Light Rain then T-Storms".toLower = Lightning :=
  have h := classifyWeather_case_insensitive "Light Rain then T-Storms" (by decide)
  ⟨h.1.trans (by decide), h.2.trans (by decide)⟩

/-! ### Patterns on a run of letters -/

theorem forall₂_append_split {R : Char → Char → Prop} (u v : List Char) :
    ∀ m : List Char, List.Forall₂ R (u ++ v) m →
      ∃ m1 m2, m = m1 ++ m2 ∧ List.Forall₂ R u m1 ∧ List.Forall₂ R v m2 := by
  induction u with
  | nil => intro m h; exact ⟨[], m, rfl, List.Forall₂.nil, h⟩
  | cons a u ih =>
    intro m h
    cases h with
    | cons ha hrest =>
      obtain ⟨m1, m2, rfl, h1, h2⟩ := ih _ hrest
      exact ⟨_ :: m1, m2, rfl, List.Forall₂.cons ha h1, h2⟩

theorem forall₂_append_join {R : Char → Char → Prop} (u v m1 m2 : List Char)
    (h1 : List.Forall₂ R u m1) (h2 : List.Forall₂ R v m2) :
    List.Forall₂ R (u ++ v) (m1 ++ m2) := by
  induction h1 with
  | nil => exact h2
  | cons ha _ ih => exact List.Forall₂.cons ha ih

theorem starRun_of_no_class_char (cs : List Char) (k : Option Char → List Char → Bool)
    (hcs : cs.all (fun c => !isAsciiLetter c) = true) (p : Option Char) (s : List Char)
    (hs : ∀ x ∈ s, isAsciiLetter x = true) : starRun cs k p s = k p s := by
  cases s with
  | nil => rfl
  | cons x xs =>
    have hx : cs.contains x = false := by
      rw [Bool.eq_false_iff]
      intro h
      rw [List.all_eq_true] at hcs
      have := hcs x (by simpa using h)
      simp [hs x (List.mem_cons_self _ _)] at this
    simp only [starRun, hx, Bool.false_and, Bool.false_or]

/-- On a run of letters, a pattern without `\b` matches a prefix exactly when
one of its literal words does, letter case ignored. -/
theorem body_run_iff (r : Regex) : r.noWordB = true → r.foldStable = true →
    ∀ (k : Option Char → List Char → Bool) (pre s : List Char),
    (∀ x ∈ s, isAsciiLetter x = true) →
    (r.run k pre.getLast? s = true ↔
      ∃ w ∈ r.letterWords, ∃ mid post, s = mid ++ post ∧
        List.Forall₂ (fun c x => matchRune c x = true) w mid ∧
        k (pre ++ mid).getLast? post = true) := by
  induction r with
  | eps =>
    intro _ _ k pre s _
    simp only [Regex.run, Regex.letterWords, List.mem_singleton, exists_eq_left,
      List.forall₂_nil_left_iff]
    constructor
    · intro h; exact ⟨[], s, rfl, rfl, by simpa using h⟩
    · rintro ⟨mid, post, rfl, rfl, h⟩; simpa using h
  | lit c =>
    intro _ _ k pre s _
    have h := lits_run [c] k pre s
    simp only [lits, List.foldr, Regex.run] at h
    simp only [Regex.letterWords, List.mem_singleton, exists_eq_left]
    rw [← h]
  | cls cs =>
    intro _ hr k pre s hs
    simp only [Regex.letterWords, List.not_mem_nil, false_and, exists_false, iff_false]
    cases s with
    | nil => simp [Regex.run]
    | cons x xs =>
      simp only [Regex.foldStable] at hr
      have hx : cs.contains x = false := by
        rw [Bool.eq_false_iff]
        intro h
        rw [List.all_eq_true] at hr
        have := hr x (by simpa using h)
        simp [hs x (List.mem_cons_self _ _)] at this
      simp only [Regex.run, hx, Bool.false_and, Bool.false_eq_true, not_false_eq_true]
  | star cs =>
    intro _ hr k pre s hs
    simp only [Regex.foldStable] at hr
    simp only [Regex.run, starRun_of_no_class_char cs k hr _ s hs, Regex.letterWords,
      List.mem_singleton, exists_eq_left, List.forall₂_nil_left_iff]
    constructor
    · intro h; exact ⟨[], s, rfl, rfl, by simpa using h⟩
    · rintro ⟨mid, post, rfl, rfl, h⟩; simpa using h
  | wordB => intro h; simp [Regex.noWordB] at h
  | seq a b iha ihb =>
    intro hn hr k pre s hs
    simp only [Regex.noWordB, Regex.foldStable, Bool.and_eq_true] at hn hr
    simp only [Regex.run, Regex.letterWords, List.mem_flatMap, List.mem_map]
    rw [iha hn.1 hr.1 (b.run k) pre s hs]
    constructor
    · rintro ⟨u, hu, m1, post1, rfl, hf1, hb⟩
      rw [ihb hn.2 hr.2 k (pre ++ m1) post1
        (fun x hx => hs x (List.mem_append_right _ hx))] at hb
      obtain ⟨v, hv, m2, post2, rfl, hf2, hk⟩ := hb
      exact ⟨u ++ v, ⟨u, hu, v, hv, rfl⟩, m1 ++ m2, post2, by simp,
        forall₂_append_join _ _ _ _ hf1 hf2, by simpa using hk⟩
    · rintro ⟨w, ⟨u, hu, v, hv, rfl⟩, mid, post, rfl, hf, hk⟩
      obtain ⟨m1, m2, rfl, hf1, hf2⟩ := forall₂_append_split u v mid hf
      refine ⟨u, hu, m1, m2 ++ post, by simp, hf1, ?_⟩
      rw [ihb hn.2 hr.2 k (pre ++ m1) (m2 ++ post)
        (fun x hx => hs x (by simp only [List.mem_append] at hx ⊢; tauto))]
      exact ⟨v, hv, m2, post, rfl, hf2, by simpa using hk⟩
  | alt a b iha ihb =>
    intro hn hr k pre s hs
    simp only [Regex.noWordB, Regex.foldStable, Bool.and_eq_true] at hn hr
    simp only [Regex.run, Bool.or_eq_true, Regex.letterWords, List.mem_append]
    rw [iha hn.1 hr.1 k pre s hs, ihb hn.2 hr.2 k pre s hs]
    constructor
    · rintro (⟨w, hw, h⟩ | ⟨w, hw, h⟩)
      · exact ⟨w, Or.inl hw, h⟩
      · exact ⟨w, Or.inr hw, h⟩
    · rintro ⟨w, hw | hw, h⟩
      · exact Or.inl ⟨w, hw, h⟩
      · exact Or.inr ⟨w, hw, h⟩
  | opt a iha =>
    intro hn hr k pre s hs
    simp only [Regex.noWordB, Regex.foldStable] at hn hr
    simp only [Regex.run, Bool.or_eq_true, Regex.letterWords, List.mem_append,
      List.mem_singleton]
    rw [iha hn hr k pre s hs]
    constructor
    · rintro (⟨w, hw, h⟩ | h)
      · exact ⟨w, Or.inl hw, h⟩
      · exact ⟨[], Or.inr rfl, [], s, rfl, List.Forall₂.nil, by simpa using h⟩
    · rintro ⟨w, hw | rfl, h⟩
      · exact Or.inl ⟨w, hw, h⟩
      · obtain ⟨mid, post, rfl, hf, hk⟩ := h
        rw [List.forall₂_nil_left_iff] at hf
        subst hf
        exact Or.inr (by simpa using hk)

theorem isWordAt_getLast?_of_letters (a : List Char) (ha : ∀ x ∈ a, isAsciiLetter x = true)
    (hne : a ≠ []) : isWordAt a.getLast? = true := by
  rw [List.getLast?_eq_getLast a hne]
  exact isWordChar_of_letter _ (ha _ (List.getLast_mem hne))

theorem isWordAt_head?_of_letters (a : List Char) (ha : ∀ x ∈ a, isAsciiLetter x = true)
    (hne : a ≠ []) : isWordAt a.head? = true := by
  cases a with
  | nil => exact absurd rfl hne
  | cons x xs => exact isWordChar_of_letter _ (ha x (List.mem_cons_self _ _))

theorem wordBody_eq_some (p body : Regex) (h : p.wordBody = some body) : p = word body := by
  unfold Regex.wordBody at h
  split at h
  · cases h; rfl
  · cases h

theorem forall₂_ne_nil {R : Char → Char → Prop} (w mid : List Char) (h : List.Forall₂ R w mid)
    (hw : w ≠ []) : mid ≠ [] := by
  cases h with
  | nil => exact absurd rfl hw
  | cons _ _ => exact List.cons_ne_nil _ _

/-- On a run of letters a pattern `\b(body)\b` can only match the whole run. -/
theorem word_search_letters (body : Regex) (hn : body.noWordB = true)
    (hr : body.foldStable = true) (hne : ∀ w ∈ body.letterWords, w ≠ [])
    (d : List Char) (hd : ∀ x ∈ d, isAsciiLetter x = true)
    (h : (word body).search none d = true) :
    ∃ w ∈ body.letterWords, List.Forall₂ (fun c x => matchRune c x = true) w d := by
  have hs := (search_iff (word body) [] d).1 (by simpa using h)
  obtain ⟨a, b, rfl, hm⟩ := hs
  simp only [List.nil_append] at hm
  rw [word_matchHere, Bool.and_eq_true] at hm
  obtain ⟨hb1, hrun⟩ := hm
  have hb : ∀ x ∈ b, isAsciiLetter x = true := fun x hx => hd x (List.mem_append_right _ hx)
  have ha : ∀ x ∈ a, isAsciiLetter x = true := fun x hx => hd x (List.mem_append_left _ hx)
  rw [body_run_iff body hn hr _ a b hb] at hrun
  obtain ⟨w, hw, mid, post, rfl, hf, hb2⟩ := hrun
  have hmid : mid ≠ [] := forall₂_ne_nil w mid hf (hne w hw)
  have hmidl : ∀ x ∈ mid, isAsciiLetter x = true :=
    fun x hx => hb x (List.mem_append_left _ hx)
  have hpostl : ∀ x ∈ post, isAsciiLetter x = true :=
    fun x hx => hb x (List.mem_append_right _ hx)
  have ha0 : a = [] := by
    by_contra hane
    have h1 := isWordAt_getLast?_of_letters a ha hane
    have h2 := isWordAt_head?_of_letters (mid ++ post) hb (by simp [hmid])
    rw [atWordBoundary, h1, h2] at hb1
    exact absurd hb1 (by decide)
  have hp0 : post = [] := by
    by_contra hpne
    have h1 := isWordAt_getLast?_of_letters (a ++ mid)
      (fun x hx => by
        rcases List.mem_append.1 hx with hx | hx
        · exact ha x hx
        · exact hmidl x hx) (by simp [hmid])
    have h2 := isWordAt_head?_of_letters post hpostl hpne
    rw [atWordBoundary, h1, h2] at hb2
    exact absurd hb2 (by decide)
  subst ha0 hp0
  exact ⟨w, hw, by simpa using hf⟩

theorem word_fullMatch_letters (body : Regex) (hn : body.noWordB = true)
    (hr : body.foldStable = true) (d : List Char) (hd : ∀ x ∈ d, isAsciiLetter x = true)
    (w : List Char) (hw : w ∈ body.letterWords) (hwne : w ≠ [])
    (hf : List.Forall₂ (fun c x => matchRune c x = true) w d) :
    (word body).run (fun _ rest => rest.isEmpty) none d = true := by
  have hdne : d ≠ [] := forall₂_ne_nil w d hf hwne
  have h1 : atWordBoundary none d = true := by
    rw [atWordBoundary, isWordAt_head?_of_letters d hd hdne]
    rfl
  have h2 : atWordBoundary d.getLast? [] = true := by
    rw [atWordBoundary, isWordAt_getLast?_of_letters d hd hdne]
    rfl
  simp only [word, Regex.run, h1, Bool.true_and]
  have hrun := (body_run_iff body hn hr
    (fun p s => atWordBoundary p s && s.isEmpty) [] d hd).2
    ⟨w, hw, d, [], by simp, hf, by simpa using h2⟩
  simpa using hrun

/-- On a run of letters, a match of a word pattern is a match of the whole
run with one of the literal words of the pattern. -/
theorem isWordPattern_letters (p : Regex) (hp : p.isWordPattern = true) (d : String)
    (hd : IsLetterRun d) (h : p.MatchString d = true) :
    p.fullMatch d = true ∧
      ∃ w ∈ p.words, List.Forall₂ (fun c x => matchRune c x = true) w d.toList := by
  unfold Regex.isWordPattern at hp
  cases hb : p.wordBody with
  | none => simp [hb] at hp
  | some body =>
    simp only [hb, Bool.and_eq_true, List.all_eq_true, Bool.not_eq_true',
      List.isEmpty_eq_false] at hp
    obtain ⟨⟨hn, hr⟩, hne⟩ := hp
    have hpe := wordBody_eq_some p body hb
    subst hpe
    obtain ⟨w, hw, hf⟩ := word_search_letters body hn hr hne d.toList hd h
    refine ⟨word_fullMatch_letters body hn hr d.toList hd w hw (hne w hw) hf, w, ?_, hf⟩
    simp only [Regex.words, hb]
    exact hw


theorem exists_consulted_of_ne_cloudy (d : String) (h : classifyWeather d ≠ Cloudy) :
    ∃ p ∈ consultedPatterns, p.MatchString d = true := by
  by_contra hno
  have hcat : ∀ ps : List Regex, (∀ p ∈ ps, p ∈ consultedPatterns) →
      matchesAny d ps = false := by
    intro ps hps
    rw [matchesAny_eq_false_iff]
    rintro ⟨p, hp, hm⟩
    exact hno ⟨p, hps p hp, hm⟩
  apply h
  simp [classifyWeather,
    hcat rx.lightning (fun p hp => by simp [consultedPatterns, hp]),
    hcat rx.hail (fun p hp => by simp [consultedPatterns, hp]),
    hcat rx.snow (fun p hp => by simp [consultedPatterns, hp]),
    hcat rx.rain (fun p hp => by simp [consultedPatterns, hp]),
    hcat rx.fog (fun p hp => by simp [consultedPatterns, hp]),
    hcat rx.sunny (fun p hp => by simp [consultedPatterns, hp]),
    hcat rx.cloudy (fun p hp => by simp [consultedPatterns, hp])]

theorem consulted_isWordPattern : ∀ p ∈ consultedPatterns, p.isWordPattern = true := by
  decide

theorem consulted_words_ascii :
    ∀ w ∈ consultedPatterns.flatMap Regex.words, ∀ c ∈ w, c.toNat < 128 := by
  decide

/-- Among the literal words of the consulted patterns, those that continue
"rain" are rains, rainfall, rainshower and rainshowers. -/
theorem consulted_words_after_rain :
    ∀ w ∈ consultedPatterns.flatMap Regex.words,
      (w.map caseFold).take 4 = ['r', 'a', 'i', 'n'] → 4 < w.length →
      w ∈ ["rains", "rainfall", "rainshower", "rainshowers"].map String.toList := by
  decide

/-- C16: for a description that is a single run of ASCII letters, a result
other than Cloudy requires one of the consulted patterns to match the whole
description; and "rain" followed by a non-empty run of ASCII letters is Cloudy
unless the whole is, ignoring case, one of rains, rainfall, rainshower,
rainshowers; "raincoat" is Cloudy, and each of the four exceptions is Rainy. -/
theorem whole_word_matching :
    (∀ d : String, IsLetterRun d → classifyWeather d ≠ Cloudy →
      ∃ p ∈ consultedPatterns, p.fullMatch d = true) ∧
    (∀ t : String, t ≠ "" → IsLetterRun t →
      (∀ w ∈ ["rains", "rainfall", "rainshower", "rainshowers"],
        ¬ EqIgnoreCase ("rain" ++ t).toList w.toList) →
      classifyWeather ("rain" ++ t) = Cloudy) ∧
    classifyWeather "raincoat" = Cloudy ∧
    (∀ w ∈ ["rains", "rainfall", "rainshower", "rainshowers"], classifyWeather w = Rainy) := by
  refine ⟨?_, ?_, by decide, by decide⟩
  · intro d hd hc
    obtain ⟨p, hp, hm⟩ := exists_consulted_of_ne_cloudy d hc
    exact ⟨p, hp, (isWordPattern_letters p (consulted_isWordPattern p hp) d hd hm).1⟩
  · intro t ht hl hne
    by_contra hc
    have hd : IsLetterRun ("rain" ++ t) := by
      intro c hcm
      simp only [String.toList, String.data_append, List.mem_append] at hcm
      rcases hcm with hcm | hcm
      · revert c; decide
      · exact hl c hcm
    obtain ⟨p, hp, hm⟩ := exists_consulted_of_ne_cloudy _ hc
    obtain ⟨w, hw, hf⟩ := (isWordPattern_letters p (consulted_isWordPattern p hp) _ hd hm).2
    have hwall : w ∈ consultedPatterns.flatMap Regex.words :=
      List.mem_flatMap.2 ⟨p, hp, hw⟩
    have heq : EqIgnoreCase ("rain" ++ t).toList w :=
      (forall₂_matchRune_iff w (consulted_words_ascii w hwall) _).1 hf
    have htl : t.toList ≠ [] := by
      intro h0
      apply ht
      cases t with
      | mk l => simp only [String.toList] at h0; subst h0; rfl
    have hmap : w.map caseFold = 'r' :: 'a' :: 'i' :: 'n' :: t.toList.map caseFold := by
      rw [← heq]
      simp only [String.toList, String.data_append, List.map_append]
      rfl
    have htake : (w.map caseFold).take 4 = ['r', 'a', 'i', 'n'] := by
      rw [hmap]; rfl
    have hlen : 4 < w.length := by
      have := congrArg List.length hmap
      simp only [List.length_map, List.length_cons] at this
      have : 0 < t.toList.length := List.length_pos.2 htl
      omega
    have hmem := consulted_words_after_rain w hwall htake hlen
    rw [List.mem_map] at hmem
    obtain ⟨ws, hws, rfl⟩ := hmem
    exact hne ws hws heq

/-- Witness for C16: "rain" followed by "coat". -/
theorem whole_word_matching_witness :
    IsLetterRun "coat" ∧ classifyWeather ("rain" ++ "coat") = Cloudy :=
  ⟨by decide, whole_word_matching.2.1 "coat" (by decide) (by decide) (by decide)⟩

end WeatherCLI
